import Mathlib

/-!
# Project-Lab-1: motor-control firmware (MSP430FR6989)

A shallow embedding of `main.c` and `movement.c`.

* Registers and globals are fields of `MCU`, natural numbers reduced modulo the
  register width wherever the C code can overflow (`unsigned int` and `int` are
  16 bits wide on the MSP430, the port output registers 8 bits).
* A function of the C code that may not return to its caller yields an `Outcome`:
  it returned, it is spinning in the `while (1)` of `shutdown`, or it wrote a bad
  watchdog password and the device restarts.
* Hardware inputs read by a handler (`CECTL1 & CEOUT`, `P1IN & BIT1`) are
  arguments of the handler.
* `Sys` adds the foreground program and the global interrupt enable of the CPU, and
  `Sys.step` interleaves foreground statements with the two timer interrupts.
-/

namespace ProjectLab1

/-! ## Device header constants

`msp430.h` is not part of the sources; the values below are those of the
MSP430FR6989 device header. -/

def BIT0 : Nat := 0x01
def BIT1 : Nat := 0x02
def BIT2 : Nat := 0x04
def BIT3 : Nat := 0x08
def BIT4 : Nat := 0x10
def BIT5 : Nat := 0x20
def BIT6 : Nat := 0x40
def BIT7 : Nat := 0x80

/-- Capture/compare interrupt flag of `TAxCCTL0`. -/
def CCIFG : Nat := 0x0001
/-- Capture/compare interrupt enable of `TAxCCTL0`. -/
def CCIE : Nat := 0x0010
/-- Comparator E: enable of the positive input channel. -/
def CEIPEN : Nat := 0x0080
/-- Comparator E: positive input channel C6. -/
def CEIPSEL_6 : Nat := 0x0006
/-- Comparator E: positive input channel C7. -/
def CEIPSEL_7 : Nat := 0x0007
/-- Watchdog password, the high byte every write to `WDTCTL` must carry. -/
def WDTPW : Nat := 0x5A00
/-- Watchdog hold bit. -/
def WDTHOLD : Nat := 0x0080

/-! ## Configuration macros of `main.c` -/

def F_SMCLK : Nat := 8000000
def F_PWM : Nat := 20000
def CCR0VAL : Nat := F_SMCLK / F_PWM - 1
def SEC : Nat := F_SMCLK / 8

def DRIVE_DUTY : Nat := 800
def FORWARD_SEC_X100 : Nat := 105
def TURN_RIGHT_SEC_X100 : Nat := 100
def PAUSE_BETWEEN_SEC_X100 : Nat := 10

def OC_DEBOUNCE_TICKS : Nat := 4

/-! ## Machine arithmetic -/

/-- Conversion of an `int` to a 16-bit unsigned register value. -/
def u16 (i : Int) : Nat := (i % 65536).toNat

/-- The statement `R |= m` on an 8-bit port register. -/
def bis8 (x m : Nat) : Nat := (x ||| m) % 256

/-- The statement `R &= ~m` on an 8-bit port register; `~m` is computed on a
16-bit `int` and the result is stored into 8 bits. -/
def bic8 (x m : Nat) : Nat := (x &&& (0xFFFF ^^^ m)) % 256

/-- The statement `R |= m` on a 16-bit register. -/
def bis16 (x m : Nat) : Nat := (x ||| m) % 65536

/-- The statement `R &= ~m` on a 16-bit register. -/
def bic16 (x m : Nat) : Nat := (x &&& (0xFFFF ^^^ m)) % 65536

/-! ## State -/

/-- The registers and global variables the program reads or writes after
initialisation. -/
structure MCU where
  /-- Duty of channel A (ENA, TB0.6). -/
  TB0CCR6 : Nat
  /-- Duty of channel B (ENB, TB0.2). -/
  TB0CCR2 : Nat
  P1OUT : Nat
  P2OUT : Nat
  P9OUT : Nat
  CECTL0 : Nat
  WDTCTL : Nat
  TA0CCTL0 : Nat
  TA1CCTL0 : Nat
  channel_index : Nat
  overCr_countA : Nat
  overCr_countB : Nat
  button_held : Nat
  deriving DecidableEq, Repr

/-- How a call ends. -/
inductive Outcome where
  /-- The function returned to its caller. -/
  | returned (s : MCU)
  /-- Control is in the `while (1)` of `shutdown` and never comes back. -/
  | halted (s : MCU)
  /-- `WDTCTL` was written without the password: the device restarts. -/
  | restart (s : MCU)
  deriving DecidableEq, Repr

/-- The state carried by an outcome. -/
def Outcome.state : Outcome → MCU
  | .returned s => s
  | .halted s => s
  | .restart s => s

def Outcome.isReturned : Outcome → Bool
  | .returned _ => true
  | _ => false

def Outcome.isHalted : Outcome → Bool
  | .halted _ => true
  | _ => false

def Outcome.isRestart : Outcome → Bool
  | .restart _ => true
  | _ => false

/-! ## Direction inputs of the H-bridge -/

/-- IN1 is P2.2. -/
def IN1 (s : MCU) : Bool := s.P2OUT.testBit 2
/-- IN2 is P2.4. -/
def IN2 (s : MCU) : Bool := s.P2OUT.testBit 4
/-- IN3 is P1.3 (`USE_IN3_ON_P13` is 1). -/
def IN3 (s : MCU) : Bool := s.P1OUT.testBit 3
/-- IN4 is P2.3. -/
def IN4 (s : MCU) : Bool := s.P2OUT.testBit 3
/-- The overcurrent indicator is P9.7. -/
def OC_LED (s : MCU) : Bool := s.P9OUT.testBit 7

/-! ## `movement.c` -/

inductive MoveDir where
  | FORWARD | REVERSE | STOP | REST
  deriving DecidableEq, Repr

inductive TurnDir where
  | RIGHT | LEFT
  deriving DecidableEq, Repr

/-- `shutdown`: both duties to zero, all four direction inputs high, then the
endless loop. -/
def shutdown (s : MCU) : Outcome :=
  let s := { s with TB0CCR6 := 0 }
  let s := { s with TB0CCR2 := 0 }
  let s := { s with P2OUT := bis8 s.P2OUT (BIT2 ||| BIT4) }
  let s := { s with P1OUT := bis8 s.P1OUT BIT3 }
  let s := { s with P2OUT := bis8 s.P2OUT BIT3 }
  .halted s

def in3_low (s : MCU) : MCU := { s with P1OUT := bic8 s.P1OUT BIT3 }

def in3_high (s : MCU) : MCU := { s with P1OUT := bis8 s.P1OUT BIT3 }

/-- `move(duty, dir)` with `USE_IN3_ON_P13 == 1`. -/
def move (duty : Int) (dir : MoveDir) (s : MCU) : MCU :=
  match dir with
  | .FORWARD =>
    let s := { s with TB0CCR6 := u16 duty }
    let s := { s with TB0CCR2 := u16 duty }
    let s := { s with P2OUT := bic8 s.P2OUT BIT2 }
    let s := { s with P2OUT := bis8 s.P2OUT BIT4 }
    let s := in3_low s
    { s with P2OUT := bis8 s.P2OUT BIT3 }
  | .REVERSE =>
    let s := { s with TB0CCR6 := u16 duty }
    let s := { s with TB0CCR2 := u16 duty }
    let s := { s with P2OUT := bis8 s.P2OUT BIT2 }
    let s := { s with P2OUT := bic8 s.P2OUT BIT4 }
    let s := in3_high s
    { s with P2OUT := bic8 s.P2OUT BIT3 }
  | .REST =>
    let s := { s with TB0CCR6 := 0 }
    let s := { s with TB0CCR2 := 0 }
    let s := { s with P2OUT := bic8 s.P2OUT (BIT2 ||| BIT4 ||| BIT3) }
    in3_low s
  | .STOP =>
    let s := { s with TB0CCR6 := 0 }
    let s := { s with TB0CCR2 := 0 }
    let s := { s with P2OUT := bis8 s.P2OUT (BIT2 ||| BIT4) }
    let s := in3_high s
    { s with P2OUT := bis8 s.P2OUT BIT3 }

/-- `turn(duty, dir)` with `USE_IN3_ON_P13 == 1`. -/
def turn (duty : Int) (dir : TurnDir) (s : MCU) : MCU :=
  match dir with
  | .RIGHT =>
    let s := { s with TB0CCR6 := u16 duty }
    let s := { s with TB0CCR2 := u16 duty }
    let s := { s with P2OUT := bic8 s.P2OUT BIT2 }
    let s := { s with P2OUT := bis8 s.P2OUT BIT4 }
    let s := in3_high s
    { s with P2OUT := bic8 s.P2OUT BIT3 }
  | .LEFT =>
    let s := { s with TB0CCR6 := u16 duty }
    let s := { s with TB0CCR2 := u16 duty }
    let s := { s with P2OUT := bis8 s.P2OUT BIT2 }
    let s := { s with P2OUT := bic8 s.P2OUT BIT4 }
    let s := in3_low s
    { s with P2OUT := bis8 s.P2OUT BIT3 }

/-! ## `main.c`: helpers and the mission sequence -/

/-- `set_ena(d)`: the duty of channel A, clamped to the period. -/
def set_ena (d : Nat) (s : MCU) : MCU :=
  let d := if d > CCR0VAL then CCR0VAL else d
  { s with TB0CCR6 := d % 65536 }

/-- `set_enb(d)`: the duty of channel B, clamped to the period. -/
def set_enb (d : Nat) (s : MCU) : MCU :=
  let d := if d > CCR0VAL then CCR0VAL else d
  { s with TB0CCR2 := d % 65536 }

/-- `delay_0_01s(ticks)`: the loop runs `ticks` times, each round burning
`SEC / 100` cycles; the value is the number of cycles spent. No register of
`MCU` is touched. -/
def delay_0_01s : Nat → Nat
  | 0 => 0
  | ticks + 1 => SEC / 100 + delay_0_01s ticks

/-- One statement of `do_sequence`. -/
inductive Call where
  | move (duty : Int) (dir : MoveDir)
  | turn (duty : Int) (dir : TurnDir)
  | delay_0_01s (ticks : Nat)
  | set_ena (d : Nat)
  | set_enb (d : Nat)
  deriving DecidableEq, Repr

/-- The effect of one statement of `do_sequence` on the registers. -/
def Call.run : Call → MCU → MCU
  | .move duty dir, s => ProjectLab1.move duty dir s
  | .turn duty dir, s => ProjectLab1.turn duty dir s
  | .delay_0_01s _, s => s
  | .set_ena d, s => ProjectLab1.set_ena d s
  | .set_enb d, s => ProjectLab1.set_enb d s

/-- The body of `do_sequence`, statement by statement. -/
def do_sequence_body : List Call :=
  [ .move DRIVE_DUTY .FORWARD,
    .delay_0_01s FORWARD_SEC_X100,
    .move 0 .REST,
    .delay_0_01s PAUSE_BETWEEN_SEC_X100,
    .turn DRIVE_DUTY .RIGHT,
    .delay_0_01s TURN_RIGHT_SEC_X100,
    .move 0 .REST,
    .set_ena 0,
    .set_enb 0 ]

/-- Run a list of statements with no interrupt in between. -/
def runCalls (cs : List Call) (s : MCU) : MCU :=
  cs.foldl (fun s c => c.run s) s

/-- `do_sequence()` when nothing interrupts it. -/
def do_sequence (s : MCU) : MCU := runCalls do_sequence_body s

/-- The state in which `do_sequence` starts: the registers as `main` leaves them
at `__enable_interrupt()`, the globals at their initialisers. The port output
registers are not defined by a reset, so their reset contents are arguments. -/
def boot (p1 p2 p9 : Nat) : MCU :=
  { TB0CCR6 := 1
    TB0CCR2 := 1
    P1OUT := bis8 p1 BIT1
    P2OUT := p2
    P9OUT := bic8 p9 BIT7
    CECTL0 := CEIPEN ||| CEIPSEL_6
    WDTCTL := WDTPW ||| WDTHOLD
    TA0CCTL0 := CCIE
    TA1CCTL0 := CCIE
    channel_index := 0
    overCr_countA := 0
    overCr_countB := 0
    button_held := 0 }

/-! ## Interrupt handlers of `main.c` -/

/-- `TimerA0_ISR`; `ceout` is the truth value of `CECTL1 & CEOUT` read by the
handler. When `shutdown` is called the rest of the handler is never run. -/
def TimerA0_ISR (ceout : Bool) (s : MCU) : Outcome :=
  let s := { s with TA0CCTL0 := bic16 s.TA0CCTL0 CCIFG }
  let r : Outcome :=
    if ceout then
      if s.channel_index = 0 then
        let s := { s with overCr_countA := (s.overCr_countA + 1) % 65536 }
        if s.overCr_countA ≥ OC_DEBOUNCE_TICKS then
          shutdown { s with P9OUT := bis8 s.P9OUT BIT7 }
        else .returned s
      else
        let s := { s with overCr_countB := (s.overCr_countB + 1) % 65536 }
        if s.overCr_countB ≥ OC_DEBOUNCE_TICKS then
          shutdown { s with P9OUT := bis8 s.P9OUT BIT7 }
        else .returned s
    else
      if s.channel_index = 0 then .returned { s with overCr_countA := 0 }
      else .returned { s with overCr_countB := 0 }
  match r with
  | .returned s =>
    if s.channel_index = 0 then
      let s := { s with CECTL0 := (s.CECTL0 &&& (0xFFFF ^^^ 0x000F)) ||| CEIPEN ||| CEIPSEL_7 }
      .returned { s with channel_index := 1 }
    else
      let s := { s with CECTL0 := (s.CECTL0 &&& (0xFFFF ^^^ 0x000F)) ||| CEIPEN ||| CEIPSEL_6 }
      .returned { s with channel_index := 0 }
  | stopped => stopped

/-- A write to `WDTCTL`: a value whose high byte is not the password resets the
device. -/
def write_WDTCTL (v : Nat) (s : MCU) : Outcome :=
  if v / 256 = WDTPW / 256 then .returned { s with WDTCTL := v }
  else .restart { s with WDTCTL := v }

/-- `Timer1A0_ISR`; `pressed` is the truth value of `!(P1IN & BIT1)` read by the
handler (the button pulls P1.1 low). -/
def Timer1A0_ISR (pressed : Bool) (s : MCU) : Outcome :=
  let s := { s with TA1CCTL0 := bic16 s.TA1CCTL0 CCIFG }
  if pressed then
    let s := { s with button_held := (s.button_held + 1) % 65536 }
    if s.button_held ≥ 10 then write_WDTCTL 0 s
    else .returned s
  else
    .returned { s with button_held := 0 }

/-! ## Runs of a handler

A handler is entered again only after it returned: a run of ticks ends at the
first tick that halts or restarts. -/

/-- Guardian ticks fed with the comparator samples `l`: the state after the
last one if every tick returned. -/
def guardianTicks : List Bool → MCU → Option MCU
  | [], s => some s
  | c :: l, s =>
    match TimerA0_ISR c s with
    | .returned s1 => guardianTicks l s1
    | _ => none

/-- Watchdog ticks fed with the button samples `l`: the state after the last
one if every tick returned. -/
def watchdogTicks : List Bool → MCU → Option MCU
  | [], s => some s
  | b :: l, s =>
    match Timer1A0_ISR b s with
    | .returned s1 => watchdogTicks l s1
    | _ => none

/-! ## The whole system: foreground and interrupts -/

/-- What the CPU is doing. -/
inductive Mode where
  /-- Foreground code runs (`do_sequence`, then the idle loop of `main`). -/
  | run
  /-- The CPU spins in `shutdown`, inside `TimerA0_ISR`. -/
  | halt
  /-- The device has been reset; this run of the program is over. -/
  | restart
  deriving DecidableEq, Repr

/-- The system between two instructions of the foreground.

`GIE` is the global interrupt enable bit of the status register. `main` sets it
with `__enable_interrupt()`; the CPU clears it when it enters a handler and
restores it when the handler returns, and no handler of the program sets it
itself. `fg` is what the foreground still has to do; when it is empty `main` is
in its idle loop. -/
structure Sys where
  mcu : MCU
  GIE : Bool
  mode : Mode
  fg : List (MCU → MCU)

/-- Something that happens to the system. -/
inductive Event where
  /-- The foreground runs its next statement. -/
  | fg
  /-- Timer A0 requests its interrupt; the comparator output is `ceout`. -/
  | ta0 (ceout : Bool)
  /-- Timer A1 requests its interrupt; the button reads `pressed`. -/
  | ta1 (pressed : Bool)
  deriving DecidableEq, Repr

/-- An interrupt request with handler `isr`. It is served only when `GIE` is
set; the handler then runs with `GIE` clear. -/
def Sys.interrupt (isr : MCU → Outcome) (σ : Sys) : Sys :=
  if σ.mode = .restart then σ
  else if σ.GIE then
    match isr σ.mcu with
    | .returned m => { σ with mcu := m }
    | .halted m => { σ with mcu := m, GIE := false, mode := .halt }
    | .restart m => { σ with mcu := m, GIE := false, mode := .restart }
  else σ

/-- One event. The foreground advances only in mode `run`: a handler that does
not return never gives the CPU back. -/
def Sys.step (σ : Sys) : Event → Sys
  | .fg =>
    match σ.mode, σ.fg with
    | .run, f :: rest => { σ with mcu := f σ.mcu, fg := rest }
    | _, _ => σ
  | .ta0 ceout => σ.interrupt (TimerA0_ISR ceout)
  | .ta1 b => σ.interrupt (Timer1A0_ISR b)

/-- A sequence of events. -/
def Sys.exec (σ : Sys) (es : List Event) : Sys := es.foldl Sys.step σ

/-- The system as `main` calls `do_sequence`, right after
`__enable_interrupt()`: the foreground still has the whole of `do_sequence` to
run. -/
def Sys.start (p1 p2 p9 : Nat) : Sys :=
  { mcu := boot p1 p2 p9
    GIE := true
    mode := .run
    fg := do_sequence_body.map Call.run }

/-- The actuators are in the state `shutdown` leaves them in. -/
def ShutdownState (s : MCU) : Prop :=
  s.TB0CCR6 = 0 ∧ s.TB0CCR2 = 0 ∧
    IN1 s = true ∧ IN2 s = true ∧ IN3 s = true ∧ IN4 s = true

instance (s : MCU) : Decidable (ShutdownState s) := by
  unfold ShutdownState; infer_instance

/-! ## Vocabulary of the specification -/

/-- The direction pair of channel A: (IN1, IN2). -/
def dirA (s : MCU) : Bool × Bool := (IN1 s, IN2 s)
/-- The direction pair of channel B: (IN3, IN4). -/
def dirB (s : MCU) : Bool × Bool := (IN3 s, IN4 s)

def fwd : Bool × Bool := (false, true)
def rev : Bool × Bool := (true, false)
def off : Bool × Bool := (false, false)
def brake : Bool × Bool := (true, true)

/-- What the H-bridge sees: the two duties and the four direction inputs. -/
def actuators (s : MCU) : Nat × Nat × Bool × Bool × Bool × Bool :=
  (s.TB0CCR6, s.TB0CCR2, IN1 s, IN2 s, IN3 s, IN4 s)

/-- A statement of `do_sequence` that applies a maneuver. -/
def Call.isManeuver : Call → Bool
  | .move _ _ => true
  | .turn _ _ => true
  | _ => false

/-- A statement of `do_sequence` that holds the current maneuver. -/
def Call.isHold : Call → Bool
  | .delay_0_01s _ => true
  | _ => false

/-- The number of `true` samples at the end of `l` with no `false` between
them. -/
def trailingRun (l : List Bool) : Nat := (l.reverse.takeWhile id).length

/-- The samples of channel `X` among the Guardian ticks `l`: those of the ticks
whose 0-based index is `X` modulo 2 (0 is channel A, 1 is channel B). -/
def chanSamples (X : Nat) (l : List Bool) : List Bool :=
  (l.enum.filter (fun p => p.1 % 2 = X)).map Prod.snd

/-- The debounce counter of channel `X`. -/
def overCr_count (X : Nat) (s : MCU) : Nat :=
  if X = 0 then s.overCr_countA else s.overCr_countB

/-- The initial Guardian state: channel A selected, both counters zero. -/
def GuardianInit (s : MCU) : Prop :=
  s.channel_index = 0 ∧ s.overCr_countA = 0 ∧ s.overCr_countB = 0

instance (s : MCU) : Decidable (GuardianInit s) := by
  unfold GuardianInit; infer_instance

/-! ## Scenarios -/

/-- End-to-end scenario 1, up to the seventh sample of channel A: the ticks
alternate A, B; channel A reads over, over, over, clean, over, over, over and
channel B reads clean every time. The next tick is the eighth sample of A. -/
def scenario1 : List Bool :=
  [true, false, true, false, true, false, false, false, true, false, true, false, true, false]

/-- Seven Guardian ticks with channel A over threshold at each of its four
samples: the seventh tick trips. -/
def tripOnA : List Event :=
  [.ta0 true, .ta0 false, .ta0 true, .ta0 false, .ta0 true, .ta0 false, .ta0 true]

/-- End-to-end scenario 4: the foreground applies Forward, the Guardian trips
during the hold that follows. -/
def tripDuringForward : List Event := .fg :: tripOnA

/-- What the mission would do next, with more ticks of both timers. -/
def afterTrip : List Event :=
  [.fg, .fg, .ta1 true, .fg, .ta0 true, .fg, .fg, .ta1 false, .fg, .fg, .fg, .ta0 false]

/-- The system is executing foreground code with interrupts enabled. -/
def Sys.Running (σ : Sys) : Prop := σ.mode = .run ∧ σ.GIE = true

/-- What holds of every state the system can reach: a CPU that is not running
foreground code has `GIE` clear, and a halted one shows the shutdown state. -/
def Sys.Inv (σ : Sys) : Prop :=
  (σ.mode ≠ .run → σ.GIE = false) ∧ (σ.mode = .halt → ShutdownState σ.mcu)

/-! ## Timer periods set up by `main` -/

/-- The value of `(unsigned long)(SEC * 0.025)`, the right-hand side of the
assignment to `TA0CCR0`. `SEC` is 1000000; the product evaluates to 25000.0 in
single and in double precision, and the conversion to `unsigned long` keeps
it. -/
def TA0_period : Nat := SEC * 25 / 1000

/-- The value of `(unsigned long)(SEC * 0.1)`, the right-hand side of the
assignment to `TA1CCR0`; the product evaluates to 100000.0 in single and in
double precision. -/
def TA1_period : Nat := SEC * 1 / 10

/-- What `TA0CCR0` holds after `main` assigned it: the register is 16 bits wide
and keeps the low 16 bits of the value. -/
def TA0CCR0_boot : Nat := TA0_period % 65536

/-- What `TA1CCR0` holds after `main` assigned it. -/
def TA1CCR0_boot : Nat := TA1_period % 65536

/-- The comparator input selected in the low four bits of `CECTL0` is the one
of the channel `channel_index` names (C6 for 0, C7 for 1), and the input enable
bit `CEIPEN` is set. -/
def MuxAgrees (s : MCU) : Prop :=
  (s.channel_index = 0 ∨ s.channel_index = 1) ∧
  (s.channel_index = 0 → s.CECTL0 % 16 = CEIPSEL_6) ∧
  (s.channel_index = 1 → s.CECTL0 % 16 = CEIPSEL_7) ∧
  s.CECTL0 &&& CEIPEN = CEIPEN

/-- The two values `CECTL0` takes: `main` selects C6 with channel A, the
Guardian handler moves between C6 and C7 together with `channel_index`. -/
def MuxExact (s : MCU) : Prop :=
  (s.channel_index = 0 ∧ s.CECTL0 = (CEIPEN ||| CEIPSEL_6)) ∨
  (s.channel_index = 1 ∧ s.CECTL0 = (CEIPEN ||| CEIPSEL_7))

/-! ## Invariants of a mission run -/

/-- The registers the motion primitives write. -/
def ports (s : MCU) : Nat × Nat × Nat × Nat := (s.TB0CCR6, s.TB0CCR2, s.P1OUT, s.P2OUT)

/-- A run of the script `cs` started on `m0`: the foreground has run a prefix of
the script and still has the rest to run, and unless the Guardian tripped the
registers of the motion primitives are what that prefix leaves when nothing
interrupts it. -/
def Sys.Mission (cs : List Call) (m0 : MCU) (σ : Sys) : Prop :=
  ∃ ran rest, cs = ran ++ rest ∧ σ.fg = rest.map Call.run ∧
    (σ.mode ≠ .halt → ports σ.mcu = ports (runCalls ran m0))

/-- The counters stay within their thresholds, strictly below them while the
foreground runs, and the foreground is a list of mission statements. -/
def Sys.Bounded (σ : Sys) : Prop :=
  σ.mcu.overCr_countA ≤ OC_DEBOUNCE_TICKS ∧ σ.mcu.overCr_countB ≤ OC_DEBOUNCE_TICKS ∧
  σ.mcu.button_held ≤ 10 ∧
  (σ.mode = .run → σ.mcu.overCr_countA < OC_DEBOUNCE_TICKS ∧
    σ.mcu.overCr_countB < OC_DEBOUNCE_TICKS ∧ σ.mcu.button_held < 10) ∧
  (∃ cs : List Call, σ.fg = cs.map Call.run)

/-- A mission run with ticks of both timers between the statements, none of
which trips or restarts: for C15. -/
def quietMission : List Event :=
  [.fg, .ta0 true, .fg, .ta1 true, .fg, .fg, .ta0 false, .fg, .ta1 false, .fg, .fg, .fg, .fg]

/-! ## Detection latency -/

/-- The Guardian trips at the tick with 0-based index `k` of the run fed with
the samples `f` from the state `s`: the `k` ticks before it returned and this
one ends in `shutdown`. -/
def tripsAt (f : List Bool) (s : MCU) (k : Nat) : Bool :=
  match guardianTicks (f.take k) s, f[k]? with
  | some t, some x => (TimerA0_ISR x t).isHalted
  | _, _ => false

/-- Eight ticks with channel A over threshold at each of its samples and
channel B clean. -/
def faultOnA : List Bool := [true, false, true, false, true, false, true, false]

/-! ## What a run of the mission shows -/

/-- One entry of the timeline of a mission run. -/
inductive Phase where
  /-- A statement changed what the H-bridge sees to the state `a`. -/
  | change (a : Nat × Nat × Bool × Bool × Bool × Bool)
  /-- The foreground held the current state for `ticks` rounds of the delay
  helper, which took `cycles` busy-wait cycles. -/
  | hold (ticks cycles : Nat)
  deriving DecidableEq, Repr

/-- The timeline of running the statements `cs` from the state `s` with no
interrupt, and the state they leave: a delay is logged as a hold, any other
statement is logged as a change when the actuators differ after it. -/
def timeline : List Call → MCU → List Phase × MCU
  | [], s => ([], s)
  | c :: cs, s =>
    let here : List Phase :=
      match c with
      | .delay_0_01s n => [.hold n (delay_0_01s n)]
      | _ => if actuators (c.run s) = actuators s then [] else [.change (actuators (c.run s))]
    (here ++ (timeline cs (c.run s)).1, (timeline cs (c.run s)).2)

/-- Add the actuator state `a` to a log of the states seen so far, most recent
first: it is recorded when it differs from the most recent one. -/
def record (a : Nat × Nat × Bool × Bool × Bool × Bool) :
    List (Nat × Nat × Bool × Bool × Bool × Bool) → List (Nat × Nat × Bool × Bool × Bool × Bool)
  | [] => [a]
  | b :: log => if a = b then b :: log else a :: b :: log

/-- The actuator states the system passes through while the events `es` happen,
most recent first, starting from the log `log`: the actuators are looked at
after every event. -/
def Sys.observe : Sys → List (Nat × Nat × Bool × Bool × Bool × Bool) → List Event →
    List (Nat × Nat × Bool × Bool × Bool × Bool)
  | _, log, [] => log
  | σ, log, e :: es => Sys.observe (σ.step e) (record (actuators (σ.step e).mcu) log) es

/-- The actuator states the statements `cs` pass through when run from `s` with
no interrupt, most recent first, starting from the log `log`. -/
def observeCalls : MCU → List (Nat × Nat × Bool × Bool × Bool × Bool) → List Call →
    List (Nat × Nat × Bool × Bool × Bool × Bool)
  | _, log, [] => log
  | s, log, c :: cs => observeCalls (c.run s) (record (actuators (c.run s)) log) cs

/-- Invariant of an observed run of the script `cs` started on `m0`: the
foreground has run a prefix of the script, and unless the Guardian tripped the
registers of the motion primitives and the log are those of that prefix run
with no interrupt. -/
def Sys.Observed (cs : List Call) (m0 : MCU) (σ : Sys)
    (log : List (Nat × Nat × Bool × Bool × Bool × Bool)) : Prop :=
  ∃ ran rest, cs = ran ++ rest ∧ σ.fg = rest.map Call.run ∧
    (σ.mode ≠ .halt → ports σ.mcu = ports (runCalls ran m0) ∧
      log = observeCalls m0 [actuators m0] ran)

/-- The actuator state of the Forward maneuver of the mission. -/
def forwardState : Nat × Nat × Bool × Bool × Bool × Bool :=
  (DRIVE_DUTY, DRIVE_DUTY, false, true, false, true)

/-- The actuator state of the Coast maneuver. -/
def coastState : Nat × Nat × Bool × Bool × Bool × Bool :=
  (0, 0, false, false, false, false)

/-- The actuator state of the PivotRight maneuver of the mission. -/
def pivotRightState : Nat × Nat × Bool × Bool × Bool × Bool :=
  (DRIVE_DUTY, DRIVE_DUTY, false, true, true, false)

/-! ## Bit-level lemmas -/

theorem testBit_bis8 (x m i : Nat) :
    (bis8 x m).testBit i = (decide (i < 8) && (x.testBit i || m.testBit i)) := by
  unfold bis8
  rw [show (256 : Nat) = 2 ^ 8 from rfl, Nat.testBit_mod_two_pow, Nat.testBit_or]

theorem testBit_bic8 (x m i : Nat) (hi : i < 16) :
    (bic8 x m).testBit i = (decide (i < 8) && (x.testBit i && !(m.testBit i))) := by
  unfold bic8
  rw [show (256 : Nat) = 2 ^ 8 from rfl, Nat.testBit_mod_two_pow, Nat.testBit_and,
    Nat.testBit_xor, show (0xFFFF : Nat) = 2 ^ 16 - 1 from rfl, Nat.testBit_two_pow_sub_one]
  simp [hi]

theorem testBit_BIT1 (i : Nat) : BIT1.testBit i = decide (1 = i) := by
  rw [show BIT1 = 2 ^ 1 from rfl, Nat.testBit_two_pow]

theorem testBit_BIT2 (i : Nat) : BIT2.testBit i = decide (2 = i) := by
  rw [show BIT2 = 2 ^ 2 from rfl, Nat.testBit_two_pow]

theorem testBit_BIT3 (i : Nat) : BIT3.testBit i = decide (3 = i) := by
  rw [show BIT3 = 2 ^ 3 from rfl, Nat.testBit_two_pow]

theorem testBit_BIT4 (i : Nat) : BIT4.testBit i = decide (4 = i) := by
  rw [show BIT4 = 2 ^ 4 from rfl, Nat.testBit_two_pow]

theorem testBit_BIT7 (i : Nat) : BIT7.testBit i = decide (7 = i) := by
  rw [show BIT7 = 2 ^ 7 from rfl, Nat.testBit_two_pow]

/-- The conversion to 16 bits keeps a value that fits. -/
theorem u16_of_lt (d : Nat) (h : d < 65536) : u16 (d : Int) = d := by
  unfold u16
  omega

/-! ## Motion primitives -/

/-- What `move` leaves on the actuators, for each direction. -/
theorem move_actuators (d : Int) (dir : MoveDir) (s : MCU) :
    actuators (move d dir s) =
      match dir with
      | .FORWARD => (u16 d, u16 d, false, true, false, true)
      | .REVERSE => (u16 d, u16 d, true, false, true, false)
      | .REST => (0, 0, false, false, false, false)
      | .STOP => (0, 0, true, true, true, true) := by
  cases dir <;>
    simp [actuators, IN1, IN2, IN3, IN4, move, in3_low, in3_high, testBit_bis8, testBit_bic8,
      testBit_BIT2, testBit_BIT3, testBit_BIT4, Nat.testBit_or]

/-- What `turn` leaves on the actuators, for each direction. -/
theorem turn_actuators (d : Int) (dir : TurnDir) (s : MCU) :
    actuators (turn d dir s) =
      match dir with
      | .RIGHT => (u16 d, u16 d, false, true, true, false)
      | .LEFT => (u16 d, u16 d, true, false, false, true) := by
  cases dir <;>
    simp [actuators, IN1, IN2, IN3, IN4, turn, in3_low, in3_high, testBit_bis8, testBit_bic8,
      testBit_BIT2, testBit_BIT3, testBit_BIT4, Nat.testBit_or]

/-- C5: from every state and for every duty, each maneuver leaves the direction
pairs of the fixed table: Forward (fwd, fwd), Reverse (rev, rev), Coast
(off, off) with both duties zero, Brake (brake, brake) with both duties zero,
PivotRight (fwd, rev), PivotLeft (rev, fwd); duties and directions after a
maneuver are the same whatever the state before. -/
theorem C5_direction_table (d : Int) (s : MCU) :
    (dirA (move d .FORWARD s) = fwd ∧ dirB (move d .FORWARD s) = fwd) ∧
    (dirA (move d .REVERSE s) = rev ∧ dirB (move d .REVERSE s) = rev) ∧
    (dirA (move d .REST s) = off ∧ dirB (move d .REST s) = off ∧
      (move d .REST s).TB0CCR6 = 0 ∧ (move d .REST s).TB0CCR2 = 0) ∧
    (dirA (move d .STOP s) = brake ∧ dirB (move d .STOP s) = brake ∧
      (move d .STOP s).TB0CCR6 = 0 ∧ (move d .STOP s).TB0CCR2 = 0) ∧
    (dirA (turn d .RIGHT s) = fwd ∧ dirB (turn d .RIGHT s) = rev) ∧
    (dirA (turn d .LEFT s) = rev ∧ dirB (turn d .LEFT s) = fwd) ∧
    (∀ (dir : MoveDir) (t : MCU), actuators (move d dir s) = actuators (move d dir t)) ∧
    (∀ (dir : TurnDir) (t : MCU), actuators (turn d dir s) = actuators (turn d dir t)) := by
  have hF := move_actuators d .FORWARD s
  have hR := move_actuators d .REVERSE s
  have hC := move_actuators d .REST s
  have hB := move_actuators d .STOP s
  have hPR := turn_actuators d .RIGHT s
  have hPL := turn_actuators d .LEFT s
  simp only [actuators, Prod.mk.injEq] at hF hR hC hB hPR hPL
  refine ⟨?_, ?_, ?_, ?_, ?_, ?_, ?_, ?_⟩
  · simp [dirA, dirB, fwd, hF]
  · simp [dirA, dirB, rev, hR]
  · simp [dirA, dirB, off, hC]
  · simp [dirA, dirB, brake, hB]
  · simp [dirA, dirB, fwd, rev, hPR]
  · simp [dirA, dirB, fwd, rev, hPL]
  · intro dir t
    rw [move_actuators, move_actuators]
  · intro dir t
    rw [turn_actuators, turn_actuators]

/-- C2 (code evaluated at the failing input): `move` and `turn` store the duty
they are given without clamping it; with the duty 800 of `do_sequence`, above
the period `CCR0VAL = 399`, both duty registers receive 800, whereas `set_ena`
and `set_enb` store 399. -/
theorem C2_move_turn_store_unclamped (s : MCU) :
    CCR0VAL = 399 ∧
    (move 800 .FORWARD s).TB0CCR6 = 800 ∧ (move 800 .FORWARD s).TB0CCR2 = 800 ∧
    (move 800 .REVERSE s).TB0CCR6 = 800 ∧ (move 800 .REVERSE s).TB0CCR2 = 800 ∧
    (turn 800 .RIGHT s).TB0CCR6 = 800 ∧ (turn 800 .RIGHT s).TB0CCR2 = 800 ∧
    (turn 800 .LEFT s).TB0CCR6 = 800 ∧ (turn 800 .LEFT s).TB0CCR2 = 800 ∧
    (set_ena 800 s).TB0CCR6 = 399 ∧ (set_enb 800 s).TB0CCR2 = 399 := by
  refine ⟨by decide, ?_, ?_, ?_, ?_, ?_, ?_, ?_, ?_, ?_, ?_⟩ <;>
    simp [move, turn, in3_low, in3_high, set_ena, set_enb, u16, CCR0VAL, F_SMCLK, F_PWM]

/-- C6 (code evaluated at the failing input): right after the first statement of
`do_sequence`, run from the initialised state, both duty registers hold
`DRIVE_DUTY = 800`, which is above `CCR0VAL = 399`. -/
theorem C6_forward_duty_exceeds_period (p1 p2 p9 : Nat) :
    (runCalls (do_sequence_body.take 1) (boot p1 p2 p9)).TB0CCR6 = 800 ∧
    (runCalls (do_sequence_body.take 1) (boot p1 p2 p9)).TB0CCR2 = 800 ∧
    CCR0VAL = 399 ∧ ¬ DRIVE_DUTY ≤ CCR0VAL := by
  refine ⟨?_, ?_, by decide, by decide⟩ <;>
    simp [runCalls, do_sequence_body, Call.run, move, in3_low, u16, DRIVE_DUTY]

/-- The delay helper burns `SEC / 100` cycles per tick. -/
theorem delay_0_01s_eq (ticks : Nat) : delay_0_01s ticks = ticks * (SEC / 100) := by
  induction ticks with
  | zero => simp [delay_0_01s]
  | succ n ih => rw [delay_0_01s, ih]; ring

/-! ## The Overcurrent Guardian -/

theorem trailingRun_snoc (l : List Bool) (x : Bool) :
    trailingRun (l ++ [x]) = if x then trailingRun l + 1 else 0 := by
  cases x <;> simp [trailingRun, List.takeWhile]

theorem chanSamples_snoc (X : Nat) (l : List Bool) (x : Bool) :
    chanSamples X (l ++ [x]) =
      if l.length % 2 = X then chanSamples X l ++ [x] else chanSamples X l := by
  unfold chanSamples
  rw [List.enum_append]
  by_cases h : l.length % 2 = X <;> simp [List.enumFrom, List.filter_append, h, List.filter]

theorem guardianTicks_snoc (l : List Bool) (x : Bool) (s : MCU) :
    guardianTicks (l ++ [x]) s =
      match guardianTicks l s with
      | some t =>
        (match TimerA0_ISR x t with
          | .returned u => some u
          | _ => none)
      | none => none := by
  induction l generalizing s with
  | nil => simp [guardianTicks]
  | cons c l ih =>
    simp only [List.cons_append, guardianTicks]
    cases h : TimerA0_ISR c s with
    | returned s1 => simp [ih]
    | halted s1 => simp
    | restart s1 => simp

/-- One Guardian tick while channel A is selected. -/
theorem TimerA0_ISR_chanA (x : Bool) (s : MCU) (h : s.channel_index = 0) :
    ((TimerA0_ISR x s).isHalted = true ↔
      (x = true ∧ OC_DEBOUNCE_TICKS ≤ (s.overCr_countA + 1) % 65536)) ∧
    (TimerA0_ISR x s).isRestart = false ∧
    (TimerA0_ISR x s).state.overCr_countA = (if x then (s.overCr_countA + 1) % 65536 else 0) ∧
    (TimerA0_ISR x s).state.overCr_countB = s.overCr_countB ∧
    (TimerA0_ISR x s).state.channel_index =
      if (TimerA0_ISR x s).isHalted then 0 else 1 := by
  cases x <;> by_cases hc : OC_DEBOUNCE_TICKS ≤ (s.overCr_countA + 1) % 65536 <;>
    simp [TimerA0_ISR, shutdown, h, hc, Outcome.isHalted, Outcome.isRestart, Outcome.state]

/-- One Guardian tick while channel B is selected. -/
theorem TimerA0_ISR_chanB (x : Bool) (s : MCU) (h : s.channel_index ≠ 0) :
    ((TimerA0_ISR x s).isHalted = true ↔
      (x = true ∧ OC_DEBOUNCE_TICKS ≤ (s.overCr_countB + 1) % 65536)) ∧
    (TimerA0_ISR x s).isRestart = false ∧
    (TimerA0_ISR x s).state.overCr_countB = (if x then (s.overCr_countB + 1) % 65536 else 0) ∧
    (TimerA0_ISR x s).state.overCr_countA = s.overCr_countA ∧
    (TimerA0_ISR x s).state.channel_index =
      if (TimerA0_ISR x s).isHalted then s.channel_index else 0 := by
  cases x <;> by_cases hc : OC_DEBOUNCE_TICKS ≤ (s.overCr_countB + 1) % 65536 <;>
    simp [TimerA0_ISR, shutdown, h, hc, Outcome.isHalted, Outcome.isRestart, Outcome.state]

/-- An outcome that neither halted nor restarted is a return. -/
theorem Outcome.eq_returned (o : Outcome) (h1 : o.isHalted = false)
    (h2 : o.isRestart = false) : o = .returned o.state := by
  cases o <;> simp_all [Outcome.isHalted, Outcome.isRestart, Outcome.state]

theorem Outcome.isHalted_returned (o : Outcome) (s : MCU) (h : o = .returned s) :
    o.isHalted = false ∧ o.state = s := by
  subst h; exact ⟨rfl, rfl⟩

/-- While no tick has tripped, the selected channel follows the parity of the
tick count and each counter is the length of the current run of over-threshold
samples of its channel, below the threshold. -/
theorem guardian_invariant (l : List Bool) (s0 s : MCU) (h0 : GuardianInit s0)
    (h : guardianTicks l s0 = some s) :
    s.channel_index = l.length % 2 ∧
    s.overCr_countA = trailingRun (chanSamples 0 l) ∧
    s.overCr_countB = trailingRun (chanSamples 1 l) ∧
    s.overCr_countA < OC_DEBOUNCE_TICKS ∧ s.overCr_countB < OC_DEBOUNCE_TICKS := by
  induction l using List.reverseRecOn generalizing s with
  | nil =>
    obtain ⟨h1, h2, h3⟩ := h0
    simp only [guardianTicks, Option.some.injEq] at h
    subst h
    simp [h1, h2, h3, chanSamples, trailingRun, OC_DEBOUNCE_TICKS]
  | append_singleton l x ih =>
    rw [guardianTicks_snoc] at h
    cases hl : guardianTicks l s0 with
    | none => simp [hl] at h
    | some t =>
      obtain ⟨i1, i2, i3, i4, i5⟩ := ih t hl
      simp only [hl] at h
      cases ho : TimerA0_ISR x t with
      | halted u => simp [ho] at h
      | restart u => simp [ho] at h
      | returned u =>
        simp only [ho, Option.some.injEq] at h
        subst h
        obtain ⟨e1, e2⟩ := Outcome.isHalted_returned _ _ ho
        have hpar : l.length % 2 = 0 ∨ l.length % 2 = 1 := by omega
        simp only [OC_DEBOUNCE_TICKS] at i4 i5 ⊢
        rcases hpar with hp | hp
        · obtain ⟨a1, _, a3, a4, a5⟩ := TimerA0_ISR_chanA x t (by omega)
          rw [e1] at a1 a5
          rw [e2] at a3 a4 a5
          simp only [OC_DEBOUNCE_TICKS] at a1
          have hx : ¬ (x = true ∧ 4 ≤ (t.overCr_countA + 1) % 65536) := by
            intro hh; exact absurd (a1.mpr hh) (by simp)
          have cA : chanSamples 0 (l ++ [x]) = chanSamples 0 l ++ [x] := by
            simp [chanSamples_snoc, hp]
          have cB : chanSamples 1 (l ++ [x]) = chanSamples 1 l := by
            simp [chanSamples_snoc, hp]
          rw [cA, cB, trailingRun_snoc, List.length_append, List.length_singleton]
          cases x
          · simp at a3 a5 ⊢
            refine ⟨by omega, a3, by omega, by omega, by omega⟩
          · simp at a3 a5 hx ⊢
            refine ⟨by omega, by omega, by omega, by omega, by omega⟩
        · obtain ⟨a1, _, a3, a4, a5⟩ := TimerA0_ISR_chanB x t (by omega)
          rw [e1] at a1 a5
          rw [e2] at a3 a4 a5
          simp only [OC_DEBOUNCE_TICKS] at a1
          have hx : ¬ (x = true ∧ 4 ≤ (t.overCr_countB + 1) % 65536) := by
            intro hh; exact absurd (a1.mpr hh) (by simp)
          have cA : chanSamples 0 (l ++ [x]) = chanSamples 0 l := by
            simp [chanSamples_snoc, hp]
          have cB : chanSamples 1 (l ++ [x]) = chanSamples 1 l ++ [x] := by
            simp [chanSamples_snoc, hp]
          rw [cA, cB, trailingRun_snoc, List.length_append, List.length_singleton]
          cases x
          · simp at a3 a5 ⊢
            refine ⟨by omega, by omega, a3, by omega, by omega⟩
          · simp at a3 a5 hx ⊢
            refine ⟨by omega, by omega, by omega, by omega, by omega⟩

/-- C1: starting from the initial Guardian state, as long as no earlier tick has
tripped, the tick with 0-based index `l.length` (which samples channel
`l.length % 2`) invokes `shutdown` if and only if the samples of that channel
read so far, this one included, end in at least `OC_DEBOUNCE_TICKS = 4`
consecutive over-threshold samples; a clean sample sets the counter of its
channel to zero and an over-threshold sample adds one to it. -/
theorem C1_guardian_trip_iff (l : List Bool) (x : Bool) (s0 s : MCU)
    (h0 : GuardianInit s0) (h : guardianTicks l s0 = some s) :
    OC_DEBOUNCE_TICKS = 4 ∧
    ((TimerA0_ISR x s).isHalted = true ↔
      OC_DEBOUNCE_TICKS ≤ trailingRun (chanSamples (l.length % 2) (l ++ [x]))) ∧
    (x = false → overCr_count (l.length % 2) (TimerA0_ISR x s).state = 0) ∧
    (x = true → overCr_count (l.length % 2) (TimerA0_ISR x s).state =
      overCr_count (l.length % 2) s + 1) := by
  obtain ⟨i1, i2, i3, i4, i5⟩ := guardian_invariant l s0 s h0 h
  have hpar : l.length % 2 = 0 ∨ l.length % 2 = 1 := by omega
  simp only [OC_DEBOUNCE_TICKS] at i4 i5 ⊢
  refine ⟨trivial, ?_⟩
  rcases hpar with hp | hp
  · obtain ⟨a1, _, a3, _, _⟩ := TimerA0_ISR_chanA x s (by omega)
    simp only [OC_DEBOUNCE_TICKS] at a1
    have cA : chanSamples 0 (l ++ [x]) = chanSamples 0 l ++ [x] := by
      simp [chanSamples_snoc, hp]
    rw [hp, cA, trailingRun_snoc, a1]
    cases x
    · simp [overCr_count, a3]
    · simp [overCr_count, a3]
      constructor
      · constructor <;> intro hh <;> omega
      · omega
  · obtain ⟨a1, _, a3, _, _⟩ := TimerA0_ISR_chanB x s (by omega)
    simp only [OC_DEBOUNCE_TICKS] at a1
    have cB : chanSamples 1 (l ++ [x]) = chanSamples 1 l ++ [x] := by
      simp [chanSamples_snoc, hp]
    rw [hp, cB, trailingRun_snoc, a1]
    cases x
    · simp [overCr_count, a3]
    · simp [overCr_count, a3]
      constructor
      · constructor <;> intro hh <;> omega
      · omega

/-- C8: on a Guardian tick whose over-threshold sample takes the counter of the
selected channel to `OC_DEBOUNCE_TICKS`, from every register state the handler
ends in `shutdown` with the indicator bit P9.7 set, both duties zero and IN1 to
IN4 high; duties, direction inputs and the two port registers are the ones
`move(d, STOP)` produces from the same state, for every `d`. -/
theorem C8_trip_state (s : MCU)
    (h : OC_DEBOUNCE_TICKS ≤ (overCr_count s.channel_index s + 1) % 65536) :
    (TimerA0_ISR true s).isHalted = true ∧
    OC_LED (TimerA0_ISR true s).state = true ∧
    (TimerA0_ISR true s).state.TB0CCR6 = 0 ∧
    (TimerA0_ISR true s).state.TB0CCR2 = 0 ∧
    IN1 (TimerA0_ISR true s).state = true ∧ IN2 (TimerA0_ISR true s).state = true ∧
    IN3 (TimerA0_ISR true s).state = true ∧ IN4 (TimerA0_ISR true s).state = true ∧
    ∀ d : Int,
      actuators (TimerA0_ISR true s).state = actuators (move d .STOP s) ∧
      (TimerA0_ISR true s).state.P2OUT = (move d .STOP s).P2OUT ∧
      (TimerA0_ISR true s).state.P1OUT = (move d .STOP s).P1OUT := by
  by_cases hc : s.channel_index = 0
  · simp only [overCr_count, hc, if_true] at h
    simp [TimerA0_ISR, shutdown, hc, h, Outcome.isHalted, Outcome.state, OC_LED, actuators,
      IN1, IN2, IN3, IN4, move, in3_high, testBit_bis8, testBit_BIT2, testBit_BIT3,
      testBit_BIT4, testBit_BIT7, Nat.testBit_or]
  · simp only [overCr_count, hc, if_false] at h
    simp [TimerA0_ISR, shutdown, hc, h, Outcome.isHalted, Outcome.state, OC_LED, actuators,
      IN1, IN2, IN3, IN4, move, in3_high, testBit_bis8, testBit_BIT2, testBit_BIT3,
      testBit_BIT4, testBit_BIT7, Nat.testBit_or]

/-! ## The Reset Watchdog -/

theorem watchdogTicks_snoc (l : List Bool) (x : Bool) (s : MCU) :
    watchdogTicks (l ++ [x]) s =
      match watchdogTicks l s with
      | some t =>
        (match Timer1A0_ISR x t with
          | .returned u => some u
          | _ => none)
      | none => none := by
  induction l generalizing s with
  | nil => simp [watchdogTicks]
  | cons c l ih =>
    simp only [List.cons_append, watchdogTicks]
    cases h : Timer1A0_ISR c s with
    | returned s1 => simp [ih]
    | halted s1 => simp
    | restart s1 => simp

/-- One Watchdog tick. -/
theorem Timer1A0_ISR_tick (x : Bool) (s : MCU) :
    ((Timer1A0_ISR x s).isRestart = true ↔ (x = true ∧ 10 ≤ (s.button_held + 1) % 65536)) ∧
    (Timer1A0_ISR x s).isHalted = false ∧
    (Timer1A0_ISR x s).state.button_held = (if x then (s.button_held + 1) % 65536 else 0) ∧
    ((Timer1A0_ISR x s).isRestart = true → (Timer1A0_ISR x s).state.WDTCTL = 0) := by
  cases x <;> by_cases hc : 10 ≤ (s.button_held + 1) % 65536 <;>
    simp [Timer1A0_ISR, write_WDTCTL, WDTPW, hc, Outcome.isHalted, Outcome.isRestart,
      Outcome.state]

/-- While no tick has restarted the device, the hold counter is the length of
the current run of pressed samples, below ten. -/
theorem watchdog_invariant (l : List Bool) (s0 s : MCU) (h0 : s0.button_held = 0)
    (h : watchdogTicks l s0 = some s) :
    s.button_held = trailingRun l ∧ s.button_held < 10 := by
  induction l using List.reverseRecOn generalizing s with
  | nil =>
    simp only [watchdogTicks, Option.some.injEq] at h
    subst h
    simp [h0, trailingRun]
  | append_singleton l x ih =>
    rw [watchdogTicks_snoc] at h
    cases hl : watchdogTicks l s0 with
    | none => simp [hl] at h
    | some t =>
      obtain ⟨i1, i2⟩ := ih t hl
      simp only [hl] at h
      cases ho : Timer1A0_ISR x t with
      | halted u => simp [ho] at h
      | restart u => simp [ho] at h
      | returned u =>
        simp only [ho, Option.some.injEq] at h
        subst h
        obtain ⟨a1, _, a3, _⟩ := Timer1A0_ISR_tick x t
        rw [ho] at a1 a3
        simp only [Outcome.isRestart, Outcome.state] at a1 a3
        rw [trailingRun_snoc]
        cases x
        · simp at a3 ⊢
          exact ⟨a3, by omega⟩
        · simp at a1 a3 ⊢
          exact ⟨by omega, by omega⟩

/-- C4: starting from `button_held = 0`, as long as no earlier tick has restarted
the device, a Watchdog tick writes `WDTCTL = 0` (full restart) if and only if
the button samples up to and including this tick end in at least ten
consecutive pressed samples; a released sample sets `button_held` to zero. -/
theorem C4_watchdog_restart_iff (l : List Bool) (x : Bool) (s0 s : MCU)
    (h0 : s0.button_held = 0) (h : watchdogTicks l s0 = some s) :
    ((Timer1A0_ISR x s).isRestart = true ↔ 10 ≤ trailingRun (l ++ [x])) ∧
    ((Timer1A0_ISR x s).isRestart = true → (Timer1A0_ISR x s).state.WDTCTL = 0) ∧
    (x = false → (Timer1A0_ISR x s).state.button_held = 0) := by
  obtain ⟨i1, i2⟩ := watchdog_invariant l s0 s h0 h
  obtain ⟨a1, _, a3, a4⟩ := Timer1A0_ISR_tick x s
  refine ⟨?_, a4, ?_⟩
  · rw [a1, trailingRun_snoc]
    cases x
    · simp
    · simp
      constructor <;> intro hh <;> omega
  · intro hx
    subst hx
    simpa using a3

/-! ## Foreground and interrupts together -/

/-- A handler that ends in `shutdown` leaves the shutdown state and the
indicator lit. -/
theorem TimerA0_ISR_halted_state (x : Bool) (s : MCU)
    (h : (TimerA0_ISR x s).isHalted = true) :
    ShutdownState (TimerA0_ISR x s).state ∧ OC_LED (TimerA0_ISR x s).state = true := by
  by_cases hc : s.channel_index = 0
  · have a1 := (TimerA0_ISR_chanA x s hc).1.mp h
    obtain ⟨hx, hn⟩ := a1
    subst hx
    have hh : OC_DEBOUNCE_TICKS ≤ (overCr_count s.channel_index s + 1) % 65536 := by
      simpa [overCr_count, hc] using hn
    simp [TimerA0_ISR, shutdown, hc, hn, Outcome.state, OC_LED, ShutdownState,
      IN1, IN2, IN3, IN4, testBit_bis8, testBit_BIT2, testBit_BIT3,
      testBit_BIT4, testBit_BIT7, Nat.testBit_or]
  · have a1 := (TimerA0_ISR_chanB x s hc).1.mp h
    obtain ⟨hx, hn⟩ := a1
    subst hx
    simp [TimerA0_ISR, shutdown, hc, hn, Outcome.state, OC_LED, ShutdownState,
      IN1, IN2, IN3, IN4, testBit_bis8, testBit_BIT2, testBit_BIT3,
      testBit_BIT4, testBit_BIT7, Nat.testBit_or]

/-- With `GIE` clear no interrupt is served. -/
theorem Sys.interrupt_of_GIE_clear (isr : MCU → Outcome) (σ : Sys) (hg : σ.GIE = false) :
    σ.interrupt isr = σ := by
  unfold Sys.interrupt
  simp [hg]

/-- Once the CPU is stuck in a handler with `GIE` clear, no event changes
anything. -/
theorem Sys.step_of_stopped (σ : Sys) (e : Event) (hm : σ.mode ≠ .run) (hg : σ.GIE = false) :
    σ.step e = σ := by
  cases e with
  | fg =>
    simp only [Sys.step]
    split
    · next h1 _ => exact absurd h1 hm
    · rfl
  | ta0 c => exact Sys.interrupt_of_GIE_clear _ σ hg
  | ta1 b => exact Sys.interrupt_of_GIE_clear _ σ hg

theorem Sys.exec_of_stopped (σ : Sys) (es : List Event) (hm : σ.mode ≠ .run)
    (hg : σ.GIE = false) : σ.exec es = σ := by
  induction es with
  | nil => rfl
  | cons e es ih =>
    have : σ.exec (e :: es) = (σ.step e).exec es := rfl
    rw [this, Sys.step_of_stopped σ e hm hg, ih]

theorem Sys.exec_append (σ : Sys) (es1 es2 : List Event) :
    σ.exec (es1 ++ es2) = (σ.exec es1).exec es2 := by
  simp [Sys.exec, List.foldl_append]

theorem Sys.Inv_interrupt_ta0 (σ : Sys) (c : Bool) (h : σ.Inv) :
    (σ.interrupt (TimerA0_ISR c)).Inv := by
  unfold Sys.interrupt
  by_cases hr : σ.mode = .restart
  · simpa [hr] using h
  · by_cases hg : σ.GIE = true
    · simp only [hr, hg, if_true, if_false]
      have hs := TimerA0_ISR_halted_state c σ.mcu
      cases ho : TimerA0_ISR c σ.mcu with
      | returned m =>
        have hrun : σ.mode = .run := by
          by_contra hn
          have := h.1 hn
          simp [hg] at this
        simp [Sys.Inv, hrun]
      | halted m =>
        rw [ho] at hs
        simp [Sys.Inv, (hs rfl).1, Outcome.state]
        exact (hs rfl).1
      | restart m => simp [Sys.Inv]
    · simpa [hr, hg] using h

theorem Sys.Inv_interrupt_ta1 (σ : Sys) (b : Bool) (h : σ.Inv) :
    (σ.interrupt (Timer1A0_ISR b)).Inv := by
  unfold Sys.interrupt
  by_cases hr : σ.mode = .restart
  · simpa [hr] using h
  · by_cases hg : σ.GIE = true
    · simp only [hr, hg, if_true, if_false]
      have hs := (Timer1A0_ISR_tick b σ.mcu).2.1
      cases ho : Timer1A0_ISR b σ.mcu with
      | returned m =>
        have hrun : σ.mode = .run := by
          by_contra hn
          have := h.1 hn
          simp [hg] at this
        simp [Sys.Inv, hrun]
      | halted m =>
        rw [ho] at hs
        simp [Outcome.isHalted] at hs
      | restart m => simp [Sys.Inv]
    · simpa [hr, hg] using h

theorem Sys.Inv_step (σ : Sys) (e : Event) (h : σ.Inv) : (σ.step e).Inv := by
  cases e with
  | fg =>
    simp only [Sys.step]
    split
    · next h1 _ => simp [Sys.Inv, h1]
    · exact h
  | ta0 c => exact Sys.Inv_interrupt_ta0 σ c h
  | ta1 b => exact Sys.Inv_interrupt_ta1 σ b h

theorem Sys.Inv_exec (σ : Sys) (es : List Event) (h : σ.Inv) : (σ.exec es).Inv := by
  induction es generalizing σ with
  | nil => exact h
  | cons e es ih => exact ih (σ.step e) (Sys.Inv_step σ e h)

theorem Sys.Inv_of_Running (σ : Sys) (h : σ.Running) : σ.Inv := by
  obtain ⟨h1, h2⟩ := h
  simp [Sys.Inv, h1]

/-- C3: from any state in which the foreground runs with interrupts enabled, and
for any foreground program, once a sequence of events has tripped the Guardian
every later event (foreground statement, Guardian tick, Watchdog tick) leaves
the system as it is: both duty registers are 0 and IN1 to IN4 are high. -/
theorem C3_trip_is_final (σ : Sys) (es1 es2 : List Event) (hσ : σ.Running)
    (h : (σ.exec es1).mode = .halt) :
    ShutdownState (σ.exec (es1 ++ es2)).mcu ∧
    (σ.exec (es1 ++ es2)).mcu = (σ.exec es1).mcu ∧
    (σ.exec (es1 ++ es2)).mode = .halt := by
  have hi := Sys.Inv_exec σ es1 (Sys.Inv_of_Running σ hσ)
  have hg : (σ.exec es1).GIE = false := hi.1 (by simp [h])
  have hst : (σ.exec es1).exec es2 = σ.exec es1 :=
    Sys.exec_of_stopped _ es2 (by simp [h]) hg
  rw [Sys.exec_append, hst]
  exact ⟨hi.2 h, rfl, h⟩

/-- Scenario 4 for C3: the Guardian trips during the Forward phase of
`do_sequence`; whatever the mission and the timers do next, the actuators stay
in the shutdown state, which is not the Coast state. -/
theorem C3_trip_during_forward_witness :
    (Sys.start 0 0 0).Running ∧
    ((Sys.start 0 0 0).exec tripDuringForward).mode = .halt ∧
    ShutdownState ((Sys.start 0 0 0).exec (tripDuringForward ++ afterTrip)).mcu ∧
    actuators ((Sys.start 0 0 0).exec (tripDuringForward ++ afterTrip)).mcu ≠
      actuators (do_sequence (boot 0 0 0)) :=
  ⟨⟨rfl, rfl⟩, by decide,
    (C3_trip_is_final (Sys.start 0 0 0) tripDuringForward afterTrip ⟨rfl, rfl⟩ (by decide)).1,
    by decide⟩

/-- C7: while no tick has tripped, the tick with 0-based index `l.length` finds
channel A selected when the index is even and channel B when it is odd; it
updates the counter of that channel only, and when it does not trip it flips
`channel_index`; when it trips, `channel_index` and both counters keep the
values the handler left, whatever happens afterwards. -/
theorem C7_strict_alternation (l : List Bool) (x : Bool) (s0 s : MCU)
    (h0 : GuardianInit s0) (h : guardianTicks l s0 = some s) :
    s.channel_index = l.length % 2 ∧
    (l.length % 2 = 0 →
      (TimerA0_ISR x s).state.overCr_countA = (if x then s.overCr_countA + 1 else 0) ∧
      (TimerA0_ISR x s).state.overCr_countB = s.overCr_countB) ∧
    (l.length % 2 = 1 →
      (TimerA0_ISR x s).state.overCr_countB = (if x then s.overCr_countB + 1 else 0) ∧
      (TimerA0_ISR x s).state.overCr_countA = s.overCr_countA) ∧
    ((TimerA0_ISR x s).isHalted = false →
      (TimerA0_ISR x s).state.channel_index = 1 - s.channel_index ∧
      guardianTicks (l ++ [x]) s0 = some (TimerA0_ISR x s).state) ∧
    ((TimerA0_ISR x s).isHalted = true →
      (TimerA0_ISR x s).state.channel_index = s.channel_index ∧
      ∀ (prog : List (MCU → MCU)) (es : List Event),
        ((Sys.step ⟨s, true, .run, prog⟩ (.ta0 x)).exec es).mcu = (TimerA0_ISR x s).state) := by
  obtain ⟨i1, i2, i3, i4, i5⟩ := guardian_invariant l s0 s h0 h
  simp only [OC_DEBOUNCE_TICKS] at i4 i5
  have hsnoc := guardianTicks_snoc l x s0
  rw [h] at hsnoc
  have hhalt : (TimerA0_ISR x s).isHalted = true →
      ∀ (prog : List (MCU → MCU)) (es : List Event),
        ((Sys.step ⟨s, true, .run, prog⟩ (.ta0 x)).exec es).mcu = (TimerA0_ISR x s).state := by
    intro hh prog es
    cases ho : TimerA0_ISR x s with
    | returned u => simp [ho, Outcome.isHalted] at hh
    | restart u => simp [ho, Outcome.isHalted] at hh
    | halted u =>
      have hstep : Sys.step ⟨s, true, .run, prog⟩ (.ta0 x) = ⟨u, false, .halt, prog⟩ := by
        simp [Sys.step, Sys.interrupt, ho]
      rw [hstep, Sys.exec_of_stopped _ es (by simp) rfl]
      rfl
  have hret : (TimerA0_ISR x s).isHalted = false → (TimerA0_ISR x s).isRestart = false →
      guardianTicks (l ++ [x]) s0 = some (TimerA0_ISR x s).state := by
    intro hh hr
    rw [hsnoc]
    cases ho : TimerA0_ISR x s with
    | returned u => simp only [ho, Outcome.state]
    | halted u => simp [ho, Outcome.isHalted] at hh
    | restart u => simp [ho, Outcome.isRestart] at hr
  have hpar : l.length % 2 = 0 ∨ l.length % 2 = 1 := by omega
  rcases hpar with hp | hp
  · obtain ⟨a1, a2, a3, a4, a5⟩ := TimerA0_ISR_chanA x s (by omega)
    have e3 : (s.overCr_countA + 1) % 65536 = s.overCr_countA + 1 := by omega
    rw [e3] at a3
    refine ⟨i1, fun _ => ⟨a3, a4⟩, fun hq => by omega, ?_, ?_⟩
    · intro hh
      refine ⟨?_, hret hh a2⟩
      rw [a5, hh]; simp; omega
    · intro hh
      refine ⟨?_, hhalt hh⟩
      rw [a5, hh]; simp; omega
  · obtain ⟨a1, a2, a3, a4, a5⟩ := TimerA0_ISR_chanB x s (by omega)
    have e3 : (s.overCr_countB + 1) % 65536 = s.overCr_countB + 1 := by omega
    rw [e3] at a3
    refine ⟨i1, fun hq => by omega, fun _ => ⟨a3, a4⟩, ?_, ?_⟩
    · intro hh
      refine ⟨?_, hret hh a2⟩
      rw [a5, hh]; simp; omega
    · intro hh
      refine ⟨?_, hhalt hh⟩
      rw [a5, hh]; simp

/-- C10 (code evaluated at the failing input): the Guardian trips on channel A,
then the button is held for ten Watchdog ticks. The CPU stays in `shutdown`
inside `TimerA0_ISR` with `GIE` clear, `Timer1A0_ISR` is never entered,
`button_held` stays 0 and `WDTCTL` keeps the value `main` wrote; the same ten
ticks without a trip do restart the device. -/
theorem C10_hold_after_trip_does_not_restart :
    ((Sys.start 0 0 0).exec tripOnA).mode = .halt ∧
    ((Sys.start 0 0 0).exec tripOnA).GIE = false ∧
    ((Sys.start 0 0 0).exec (tripOnA ++ List.replicate 10 (.ta1 true))).mode = .halt ∧
    ((Sys.start 0 0 0).exec (tripOnA ++ List.replicate 10 (.ta1 true))).mcu.button_held = 0 ∧
    ((Sys.start 0 0 0).exec (tripOnA ++ List.replicate 10 (.ta1 true))).mcu.WDTCTL =
      (WDTPW ||| WDTHOLD) ∧
    ((Sys.start 0 0 0).exec (List.replicate 10 (.ta1 true))).mode = .restart ∧
    ((Sys.start 0 0 0).exec (List.replicate 10 (.ta1 true))).mcu.WDTCTL = 0 := by
  decide

/-- Scenario 1 for C1: with channel A reading over, over, over, clean, over,
over, over (channel B clean), none of the fourteen ticks trips, and the eighth
sample of A, over threshold, trips. -/
theorem C1_scenario1_witness :
    GuardianInit (boot 0 0 0) ∧
    guardianTicks scenario1 (boot 0 0 0) = some { boot 0 0 0 with overCr_countA := 3 } ∧
    chanSamples 0 (scenario1 ++ [true]) = [true, true, true, false, true, true, true, true] ∧
    (TimerA0_ISR true { boot 0 0 0 with overCr_countA := 3 }).isHalted = true :=
  ⟨by decide, by decide, by decide,
    (C1_guardian_trip_iff scenario1 true (boot 0 0 0) { boot 0 0 0 with overCr_countA := 3 }
      (by decide) (by decide)).2.1.mpr (by decide)⟩

/-- Scenario 2 for C4: nine pressed samples from `button_held = 0` restart
nothing, the tenth restarts the device. -/
theorem C4_ten_pressed_witness :
    (boot 0 0 0).button_held = 0 ∧
    watchdogTicks (List.replicate 9 true) (boot 0 0 0) =
      some { boot 0 0 0 with button_held := 9 } ∧
    (Timer1A0_ISR true { boot 0 0 0 with button_held := 9 }).isRestart = true :=
  ⟨rfl, by decide,
    (C4_watchdog_restart_iff (List.replicate 9 true) true (boot 0 0 0)
      { boot 0 0 0 with button_held := 9 } rfl (by decide)).1.mpr (by decide)⟩

/-- A tripping tick for C8: channel A selected, its counter at 3. -/
theorem C8_trip_state_witness :
    OC_DEBOUNCE_TICKS ≤
      (overCr_count ({ boot 0 0 0 with overCr_countA := 3 } : MCU).channel_index
        { boot 0 0 0 with overCr_countA := 3 } + 1) % 65536 ∧
    (TimerA0_ISR true { boot 0 0 0 with overCr_countA := 3 }).isHalted = true ∧
    OC_LED (TimerA0_ISR true { boot 0 0 0 with overCr_countA := 3 }).state = true :=
  ⟨by decide,
    (C8_trip_state { boot 0 0 0 with overCr_countA := 3 } (by decide)).1,
    (C8_trip_state { boot 0 0 0 with overCr_countA := 3 } (by decide)).2.1⟩

/-- A run for C7: after the fourteen ticks of scenario 1 channel A is selected
again, and the tripping fifteenth tick leaves `channel_index` at 0. -/
theorem C7_alternation_witness :
    GuardianInit (boot 0 0 0) ∧
    guardianTicks scenario1 (boot 0 0 0) = some { boot 0 0 0 with overCr_countA := 3 } ∧
    ({ boot 0 0 0 with overCr_countA := 3 } : MCU).channel_index = scenario1.length % 2 :=
  ⟨by decide, by decide,
    (C7_strict_alternation scenario1 true (boot 0 0 0) { boot 0 0 0 with overCr_countA := 3 }
      (by decide) (by decide)).1⟩

/-! ## Frame properties -/

/-- C13: a Watchdog tick with the button released, or with a pressed sample that
leaves the hold counter below ten, returns and changes only `button_held` and
the interrupt flag in `TA1CCTL0`: `channel_index`, both debounce counters, both
duty registers, the port registers (so IN1 to IN4 and the indicator bit) and
every other field keep their values. -/
theorem C13_watchdog_tick_frame (pressed : Bool) (s : MCU)
    (h : pressed = false ∨ s.button_held + 1 < 10) :
    Timer1A0_ISR pressed s =
      .returned { s with
        TA1CCTL0 := bic16 s.TA1CCTL0 CCIFG
        button_held := if pressed then s.button_held + 1 else 0 } ∧
    (Timer1A0_ISR pressed s).state.channel_index = s.channel_index ∧
    (Timer1A0_ISR pressed s).state.overCr_countA = s.overCr_countA ∧
    (Timer1A0_ISR pressed s).state.overCr_countB = s.overCr_countB ∧
    (Timer1A0_ISR pressed s).state.TB0CCR6 = s.TB0CCR6 ∧
    (Timer1A0_ISR pressed s).state.TB0CCR2 = s.TB0CCR2 ∧
    IN1 (Timer1A0_ISR pressed s).state = IN1 s ∧
    IN2 (Timer1A0_ISR pressed s).state = IN2 s ∧
    IN3 (Timer1A0_ISR pressed s).state = IN3 s ∧
    IN4 (Timer1A0_ISR pressed s).state = IN4 s ∧
    OC_LED (Timer1A0_ISR pressed s).state = OC_LED s := by
  have key : Timer1A0_ISR pressed s =
      .returned { s with
        TA1CCTL0 := bic16 s.TA1CCTL0 CCIFG
        button_held := if pressed then s.button_held + 1 else 0 } := by
    cases pressed
    · simp [Timer1A0_ISR]
    · have h1 : s.button_held + 1 < 10 := by simpa using h
      have h2 : (s.button_held + 1) % 65536 = s.button_held + 1 := by omega
      have h3 : ¬ 10 ≤ s.button_held + 1 := by omega
      simp [Timer1A0_ISR, h2, h3]
  refine ⟨key, ?_⟩
  rw [key]
  simp [Outcome.state, IN1, IN2, IN3, IN4, OC_LED]

/-- A released sample at a hold count of 9, and a pressed one at 3, for C13. -/
theorem C13_watchdog_tick_frame_witness :
    ((false = false ∨ ({ boot 0 0 0 with button_held := 9 } : MCU).button_held + 1 < 10) ∧
      Timer1A0_ISR false { boot 0 0 0 with button_held := 9 } =
        .returned { boot 0 0 0 with button_held := 0 }) ∧
    (Timer1A0_ISR true { boot 0 0 0 with button_held := 3 }).state.overCr_countA = 0 :=
  ⟨⟨Or.inl rfl,
      (C13_watchdog_tick_frame false { boot 0 0 0 with button_held := 9 } (Or.inl rfl)).1⟩,
    (C13_watchdog_tick_frame true { boot 0 0 0 with button_held := 3 }
      (Or.inr (by decide))).2.2.1⟩

/-- A Guardian tick that does not trip leaves everything outside the Guardian
alone. -/
theorem TimerA0_ISR_frame (x : Bool) (s : MCU) (h : (TimerA0_ISR x s).isHalted = false) :
    (TimerA0_ISR x s).state.button_held = s.button_held ∧
    (TimerA0_ISR x s).state.TB0CCR6 = s.TB0CCR6 ∧
    (TimerA0_ISR x s).state.TB0CCR2 = s.TB0CCR2 ∧
    (TimerA0_ISR x s).state.P1OUT = s.P1OUT ∧
    (TimerA0_ISR x s).state.P2OUT = s.P2OUT ∧
    (TimerA0_ISR x s).state.P9OUT = s.P9OUT ∧
    (TimerA0_ISR x s).state.WDTCTL = s.WDTCTL ∧
    (TimerA0_ISR x s).state.TA1CCTL0 = s.TA1CCTL0 := by
  by_cases hc : s.channel_index = 0
  · have a1 := (TimerA0_ISR_chanA x s hc).1
    cases x
    · simp [TimerA0_ISR, hc, Outcome.state]
    · have hn : ¬ OC_DEBOUNCE_TICKS ≤ (s.overCr_countA + 1) % 65536 := by
        intro hh
        rw [a1.mpr ⟨rfl, hh⟩] at h
        exact absurd h (by simp)
      simp [TimerA0_ISR, hc, hn, Outcome.state]
  · have a1 := (TimerA0_ISR_chanB x s hc).1
    cases x
    · simp [TimerA0_ISR, hc, Outcome.state]
    · have hn : ¬ OC_DEBOUNCE_TICKS ≤ (s.overCr_countB + 1) % 65536 := by
        intro hh
        rw [a1.mpr ⟨rfl, hh⟩] at h
        exact absurd h (by simp)
      simp [TimerA0_ISR, hc, hn, Outcome.state]

/-- C16: a Guardian tick with channel A selected leaves `overCr_countB` as it
is, one with channel B selected leaves `overCr_countA` as it is, whatever the
comparator reads; a tick that does not trip also leaves `button_held`, both
duty registers, IN1 to IN4 and the indicator bit unchanged. -/
theorem C16_guardian_tick_frame (x : Bool) (s : MCU) :
    (s.channel_index = 0 → (TimerA0_ISR x s).state.overCr_countB = s.overCr_countB) ∧
    (s.channel_index = 1 → (TimerA0_ISR x s).state.overCr_countA = s.overCr_countA) ∧
    ((TimerA0_ISR x s).isHalted = false →
      (TimerA0_ISR x s).state.button_held = s.button_held ∧
      (TimerA0_ISR x s).state.TB0CCR6 = s.TB0CCR6 ∧
      (TimerA0_ISR x s).state.TB0CCR2 = s.TB0CCR2 ∧
      IN1 (TimerA0_ISR x s).state = IN1 s ∧ IN2 (TimerA0_ISR x s).state = IN2 s ∧
      IN3 (TimerA0_ISR x s).state = IN3 s ∧ IN4 (TimerA0_ISR x s).state = IN4 s ∧
      OC_LED (TimerA0_ISR x s).state = OC_LED s) := by
  refine ⟨fun hc => (TimerA0_ISR_chanA x s hc).2.2.2.1,
    fun hc => (TimerA0_ISR_chanB x s (by omega)).2.2.2.1, ?_⟩
  intro h
  obtain ⟨f1, f2, f3, f4, f5, f6, _, _⟩ := TimerA0_ISR_frame x s h
  simp [IN1, IN2, IN3, IN4, OC_LED, f1, f2, f3, f4, f5, f6]

/-- An over-threshold tick on channel B with `overCr_countA` at 3, and a clean
tick on channel A with `overCr_countB` at 3, for C16: the other counter stays
at 3. -/
theorem C16_guardian_tick_frame_witness :
    (({ boot 0 0 0 with channel_index := 1, overCr_countA := 3 } : MCU).channel_index = 1 ∧
      (TimerA0_ISR true { boot 0 0 0 with channel_index := 1, overCr_countA := 3 }
        ).state.overCr_countA = 3) ∧
    (({ boot 0 0 0 with overCr_countB := 3 } : MCU).channel_index = 0 ∧
      (TimerA0_ISR false { boot 0 0 0 with overCr_countB := 3 }).state.overCr_countB = 3) ∧
    ((TimerA0_ISR false { boot 0 0 0 with overCr_countB := 3 }).isHalted = false ∧
      (TimerA0_ISR false { boot 0 0 0 with overCr_countB := 3 }).state.button_held = 0) :=
  ⟨⟨rfl,
      (C16_guardian_tick_frame true { boot 0 0 0 with channel_index := 1, overCr_countA := 3 }
        ).2.1 rfl⟩,
    ⟨rfl, (C16_guardian_tick_frame false { boot 0 0 0 with overCr_countB := 3 }).1 rfl⟩,
    ⟨by decide,
      ((C16_guardian_tick_frame false { boot 0 0 0 with overCr_countB := 3 }).2.2
        (by decide)).1⟩⟩

/-- The bits of P2OUT that `move` does not drive. -/
theorem move_P2OUT_frame (d : Int) (dir : MoveDir) (s : MCU) (i : Nat) (hi : i < 8)
    (h2 : i ≠ 2) (h3 : i ≠ 3) (h4 : i ≠ 4) :
    (move d dir s).P2OUT.testBit i = s.P2OUT.testBit i := by
  have hi16 : i < 16 := by omega
  cases dir <;>
    simp [move, in3_low, in3_high, testBit_bis8, testBit_bic8, hi16, hi, testBit_BIT2,
      testBit_BIT3, testBit_BIT4, Nat.testBit_or, h2.symm, h3.symm, h4.symm]

/-- The bits of P1OUT that `move` does not drive. -/
theorem move_P1OUT_frame (d : Int) (dir : MoveDir) (s : MCU) (i : Nat) (hi : i < 8)
    (h3 : i ≠ 3) :
    (move d dir s).P1OUT.testBit i = s.P1OUT.testBit i := by
  have hi16 : i < 16 := by omega
  cases dir <;>
    simp [move, in3_low, in3_high, testBit_bis8, testBit_bic8, hi16, hi, testBit_BIT3, h3.symm]

/-- The bits of P2OUT that `turn` does not drive. -/
theorem turn_P2OUT_frame (d : Int) (dir : TurnDir) (s : MCU) (i : Nat) (hi : i < 8)
    (h2 : i ≠ 2) (h3 : i ≠ 3) (h4 : i ≠ 4) :
    (turn d dir s).P2OUT.testBit i = s.P2OUT.testBit i := by
  have hi16 : i < 16 := by omega
  cases dir <;>
    simp [turn, in3_low, in3_high, testBit_bis8, testBit_bic8, hi16, hi, testBit_BIT2,
      testBit_BIT3, testBit_BIT4, h2.symm, h3.symm, h4.symm]

/-- The bits of P1OUT that `turn` does not drive. -/
theorem turn_P1OUT_frame (d : Int) (dir : TurnDir) (s : MCU) (i : Nat) (hi : i < 8)
    (h3 : i ≠ 3) :
    (turn d dir s).P1OUT.testBit i = s.P1OUT.testBit i := by
  have hi16 : i < 16 := by omega
  cases dir <;>
    simp [turn, in3_low, in3_high, testBit_bis8, testBit_bic8, hi16, hi, testBit_BIT3, h3.symm]

/-- The fields `move` never writes. -/
theorem move_frame (d : Int) (dir : MoveDir) (s : MCU) :
    (move d dir s).P9OUT = s.P9OUT ∧
    (move d dir s).channel_index = s.channel_index ∧
    (move d dir s).overCr_countA = s.overCr_countA ∧
    (move d dir s).overCr_countB = s.overCr_countB ∧
    (move d dir s).button_held = s.button_held ∧
    (move d dir s).CECTL0 = s.CECTL0 ∧
    (move d dir s).WDTCTL = s.WDTCTL := by
  cases dir <;> simp [move, in3_low, in3_high]

/-- The fields `turn` never writes. -/
theorem turn_frame (d : Int) (dir : TurnDir) (s : MCU) :
    (turn d dir s).P9OUT = s.P9OUT ∧
    (turn d dir s).channel_index = s.channel_index ∧
    (turn d dir s).overCr_countA = s.overCr_countA ∧
    (turn d dir s).overCr_countB = s.overCr_countB ∧
    (turn d dir s).button_held = s.button_held ∧
    (turn d dir s).CECTL0 = s.CECTL0 ∧
    (turn d dir s).WDTCTL = s.WDTCTL := by
  cases dir <;> simp [turn, in3_low, in3_high]

/-- C17: `move`, `turn` and `shutdown` leave every bit of P2OUT other than bits
2, 3, 4 and every bit of P1OUT other than bit 3 as it was, the pull-up bit P1.1
among them; `move` and `turn` leave the indicator bit P9.7, `channel_index`,
both debounce counters and `button_held` unchanged. -/
theorem C17_primitives_frame (d : Int) (mdir : MoveDir) (tdir : TurnDir) (s : MCU) :
    (∀ i : Nat, i < 8 → i ≠ 2 → i ≠ 3 → i ≠ 4 →
      (move d mdir s).P2OUT.testBit i = s.P2OUT.testBit i ∧
      (turn d tdir s).P2OUT.testBit i = s.P2OUT.testBit i ∧
      (shutdown s).state.P2OUT.testBit i = s.P2OUT.testBit i) ∧
    (∀ i : Nat, i < 8 → i ≠ 3 →
      (move d mdir s).P1OUT.testBit i = s.P1OUT.testBit i ∧
      (turn d tdir s).P1OUT.testBit i = s.P1OUT.testBit i ∧
      (shutdown s).state.P1OUT.testBit i = s.P1OUT.testBit i) ∧
    ((move d mdir s).P1OUT.testBit 1 = s.P1OUT.testBit 1 ∧
      (turn d tdir s).P1OUT.testBit 1 = s.P1OUT.testBit 1 ∧
      (shutdown s).state.P1OUT.testBit 1 = s.P1OUT.testBit 1) ∧
    (OC_LED (move d mdir s) = OC_LED s ∧
      (move d mdir s).channel_index = s.channel_index ∧
      (move d mdir s).overCr_countA = s.overCr_countA ∧
      (move d mdir s).overCr_countB = s.overCr_countB ∧
      (move d mdir s).button_held = s.button_held) ∧
    (OC_LED (turn d tdir s) = OC_LED s ∧
      (turn d tdir s).channel_index = s.channel_index ∧
      (turn d tdir s).overCr_countA = s.overCr_countA ∧
      (turn d tdir s).overCr_countB = s.overCr_countB ∧
      (turn d tdir s).button_held = s.button_held) := by
  have sh2 : ∀ i : Nat, i < 8 → i ≠ 2 → i ≠ 3 → i ≠ 4 →
      (shutdown s).state.P2OUT.testBit i = s.P2OUT.testBit i := by
    intro i hi h2 h3 h4
    simp [shutdown, Outcome.state, testBit_bis8, hi, testBit_BIT2, testBit_BIT3, testBit_BIT4,
      Nat.testBit_or, h2.symm, h3.symm, h4.symm]
  have sh1 : ∀ i : Nat, i < 8 → i ≠ 3 →
      (shutdown s).state.P1OUT.testBit i = s.P1OUT.testBit i := by
    intro i hi h3
    simp [shutdown, Outcome.state, testBit_bis8, hi, testBit_BIT3, h3.symm]
  obtain ⟨m1, m2, m3, m4, m5, _, _⟩ := move_frame d mdir s
  obtain ⟨t1, t2, t3, t4, t5, _, _⟩ := turn_frame d tdir s
  refine ⟨?_, ?_, ?_, ?_, ?_⟩
  · intro i hi h2 h3 h4
    exact ⟨move_P2OUT_frame d mdir s i hi h2 h3 h4, turn_P2OUT_frame d tdir s i hi h2 h3 h4,
      sh2 i hi h2 h3 h4⟩
  · intro i hi h3
    exact ⟨move_P1OUT_frame d mdir s i hi h3, turn_P1OUT_frame d tdir s i hi h3, sh1 i hi h3⟩
  · exact ⟨move_P1OUT_frame d mdir s 1 (by decide) (by decide),
      turn_P1OUT_frame d tdir s 1 (by decide) (by decide), sh1 1 (by decide) (by decide)⟩
  · exact ⟨by simp [OC_LED, m1], m2, m3, m4, m5⟩
  · exact ⟨by simp [OC_LED, t1], t2, t3, t4, t5⟩

/-- Bit 7 of P2OUT (the ENA pin) and the pull-up bit P1.1 through a Forward
maneuver from the initialised state, for C17. -/
theorem C17_primitives_frame_witness :
    (7 < 8 ∧ 7 ≠ 2 ∧ 7 ≠ 3 ∧ 7 ≠ 4 ∧
      (move 800 .FORWARD (boot 0 255 0)).P2OUT.testBit 7 = (boot 0 255 0).P2OUT.testBit 7) ∧
    (move 800 .FORWARD (boot 0 255 0)).P1OUT.testBit 1 = true :=
  ⟨⟨by decide, by decide, by decide, by decide,
      ((C17_primitives_frame 800 .FORWARD .RIGHT (boot 0 255 0)).1 7
        (by decide) (by decide) (by decide) (by decide)).1⟩,
    ((C17_primitives_frame 800 .FORWARD .RIGHT (boot 0 255 0)).2.2.1.1).trans (by decide)⟩

/-! ## Timer periods and the comparator input -/

/-- C14 (code evaluated at the failing input): `main` assigns 25000 to `TA0CCR0`
and 100000 to `TA1CCR0`; the first fits the 16-bit register, the second does
not and is stored as 100000 mod 65536 = 34464. The Watchdog period held in
`TA1CCR0` is therefore neither `SEC / 10` nor four times the Guardian period,
and ten Watchdog ticks span 344640 counts, not `SEC`. -/
theorem C14_watchdog_period_truncated :
    TA0_period = 25000 ∧ TA0CCR0_boot = 25000 ∧
    TA1_period = 100000 ∧ 10 * TA1_period = SEC ∧ TA1_period = 4 * TA0_period ∧
    ¬ TA1_period < 65536 ∧
    TA1CCR0_boot = 34464 ∧
    TA1CCR0_boot ≠ TA1_period ∧
    TA1CCR0_boot ≠ 4 * TA0CCR0_boot ∧
    10 * TA1CCR0_boot = 344640 ∧ 10 * TA1CCR0_boot ≠ SEC := by
  simp [TA0_period, TA1_period, TA0CCR0_boot, TA1CCR0_boot, SEC, F_SMCLK]

/-- One Guardian tick keeps `CECTL0` and `channel_index` together, whether it
returns or trips. -/
theorem TimerA0_ISR_mux (x : Bool) (s : MCU) (h : MuxExact s) :
    MuxExact (TimerA0_ISR x s).state := by
  rcases h with ⟨hi, hc⟩ | ⟨hi, hc⟩
  · cases x <;> by_cases hn : OC_DEBOUNCE_TICKS ≤ (s.overCr_countA + 1) % 65536 <;>
      simp [TimerA0_ISR, shutdown, hi, hc, hn, Outcome.state, MuxExact, CEIPEN, CEIPSEL_6,
        CEIPSEL_7] <;> decide
  · cases x <;> by_cases hn : OC_DEBOUNCE_TICKS ≤ (s.overCr_countB + 1) % 65536 <;>
      simp [TimerA0_ISR, shutdown, hi, hc, hn, Outcome.state, MuxExact, CEIPEN, CEIPSEL_6,
        CEIPSEL_7] <;> decide

theorem MuxAgrees_of_MuxExact (s : MCU) (h : MuxExact s) : MuxAgrees s := by
  rcases h with ⟨hi, hc⟩ | ⟨hi, hc⟩ <;>
    simp [MuxAgrees, hi, hc, CEIPEN, CEIPSEL_6, CEIPSEL_7] <;> decide

theorem guardianTicks_mux (l : List Bool) (s0 s : MCU) (h0 : MuxExact s0)
    (h : guardianTicks l s0 = some s) : MuxExact s := by
  induction l generalizing s0 with
  | nil =>
    simp only [guardianTicks, Option.some.injEq] at h
    exact h ▸ h0
  | cons c l ih =>
    simp only [guardianTicks] at h
    have hm := TimerA0_ISR_mux c s0 h0
    cases ho : TimerA0_ISR c s0 with
    | returned s1 =>
      rw [ho] at h hm
      exact ih s1 hm h
    | halted s1 => simp [ho] at h
    | restart s1 => simp [ho] at h

/-- C18: starting from `CECTL0 = CEIPEN | CEIPSEL_6` and `channel_index = 0`,
before every Guardian tick and after it (whether it returned or tripped) the low
four bits of `CECTL0` select C6 when `channel_index` is 0 and C7 when it is 1,
`channel_index` is 0 or 1, and `CEIPEN` is set. -/
theorem C18_mux_follows_channel_index (l : List Bool) (x : Bool) (s0 s : MCU)
    (hc : s0.CECTL0 = (CEIPEN ||| CEIPSEL_6)) (hi : s0.channel_index = 0)
    (h : guardianTicks l s0 = some s) :
    MuxAgrees s ∧ MuxAgrees (TimerA0_ISR x s).state := by
  have hs : MuxExact s := guardianTicks_mux l s0 s (Or.inl ⟨hi, hc⟩) h
  exact ⟨MuxAgrees_of_MuxExact s hs, MuxAgrees_of_MuxExact _ (TimerA0_ISR_mux x s hs)⟩

/-- Three ticks from the initialised state, for C18: channel B is selected and
the comparator looks at C7; the fourth tick goes back to C6. -/
theorem C18_mux_witness :
    (boot 0 0 0).CECTL0 = (CEIPEN ||| CEIPSEL_6) ∧ (boot 0 0 0).channel_index = 0 ∧
    guardianTicks [true, true, false] (boot 0 0 0) =
      some { boot 0 0 0 with
        channel_index := 1, overCr_countA := 0, overCr_countB := 1,
        CECTL0 := (CEIPEN ||| CEIPSEL_7) } ∧
    MuxAgrees { boot 0 0 0 with
        channel_index := 1, overCr_countA := 0, overCr_countB := 1,
        CECTL0 := (CEIPEN ||| CEIPSEL_7) } :=
  ⟨rfl, rfl, by decide,
    (C18_mux_follows_channel_index [true, true, false] true (boot 0 0 0) _ rfl rfl
      (by decide)).1⟩

/-! ## Runs of the mission -/

/-- What an interrupt request does to a reachable system: nothing, or the
handler runs from foreground mode and its outcome decides. -/
theorem Sys.interrupt_cases (isr : MCU → Outcome) (σ : Sys) (h : σ.Inv) :
    σ.interrupt isr = σ ∨
    (σ.mode = .run ∧
      ((∃ m, isr σ.mcu = .returned m ∧ σ.interrupt isr = { σ with mcu := m }) ∨
        (∃ m, isr σ.mcu = .halted m ∧
          σ.interrupt isr = { σ with mcu := m, GIE := false, mode := .halt }) ∨
        (∃ m, isr σ.mcu = .restart m ∧
          σ.interrupt isr = { σ with mcu := m, GIE := false, mode := .restart }))) := by
  unfold Sys.interrupt
  by_cases hr : σ.mode = .restart
  · left; simp [hr]
  · by_cases hg : σ.GIE = true
    · have hrun : σ.mode = .run := by
        by_contra hn
        have := h.1 hn
        simp [hg] at this
      right
      refine ⟨hrun, ?_⟩
      simp only [hr, hg, if_true, if_false]
      cases ho : isr σ.mcu with
      | returned m => left; exact ⟨m, rfl, rfl⟩
      | halted m => right; left; exact ⟨m, rfl, rfl⟩
      | restart m => right; right; exact ⟨m, rfl, rfl⟩
    · left; simp [hr, hg]

/-- The Watchdog handler never writes a register of the motion primitives nor a
Guardian variable. -/
theorem Timer1A0_ISR_frame (x : Bool) (s : MCU) :
    ports (Timer1A0_ISR x s).state = ports s ∧
    (Timer1A0_ISR x s).state.overCr_countA = s.overCr_countA ∧
    (Timer1A0_ISR x s).state.overCr_countB = s.overCr_countB ∧
    (Timer1A0_ISR x s).state.channel_index = s.channel_index := by
  cases x <;> by_cases hc : 10 ≤ (s.button_held + 1) % 65536 <;>
    simp [Timer1A0_ISR, write_WDTCTL, WDTPW, hc, Outcome.state, ports]

/-- A mission statement reads no register but those of the motion primitives. -/
theorem Call.run_ports_congr (c : Call) (s t : MCU) (h : ports s = ports t) :
    ports (c.run s) = ports (c.run t) := by
  simp only [ports, Prod.mk.injEq] at h
  obtain ⟨h1, h2, h3, h4⟩ := h
  cases c with
  | move d dir =>
    cases dir <;> simp [Call.run, ProjectLab1.move, in3_low, in3_high, ports, h3, h4]
  | turn d dir =>
    cases dir <;> simp [Call.run, ProjectLab1.turn, in3_low, in3_high, ports, h3, h4]
  | delay_0_01s n => simp [Call.run, ports, h1, h2, h3, h4]
  | set_ena d => simp [Call.run, ProjectLab1.set_ena, ports, h2, h3, h4]
  | set_enb d => simp [Call.run, ProjectLab1.set_enb, ports, h1, h3, h4]

/-- A mission statement leaves the Guardian and Watchdog variables alone. -/
theorem Call.run_frame (c : Call) (s : MCU) :
    (c.run s).overCr_countA = s.overCr_countA ∧
    (c.run s).overCr_countB = s.overCr_countB ∧
    (c.run s).button_held = s.button_held ∧
    (c.run s).channel_index = s.channel_index := by
  cases c with
  | move d dir =>
    obtain ⟨_, m2, m3, m4, m5, _, _⟩ := move_frame d dir s
    exact ⟨m3, m4, m5, m2⟩
  | turn d dir =>
    obtain ⟨_, m2, m3, m4, m5, _, _⟩ := turn_frame d dir s
    exact ⟨m3, m4, m5, m2⟩
  | delay_0_01s n => simp [Call.run]
  | set_ena d => simp [Call.run, ProjectLab1.set_ena]
  | set_enb d => simp [Call.run, ProjectLab1.set_enb]

theorem actuators_of_ports (s t : MCU) (h : ports s = ports t) : actuators s = actuators t := by
  simp only [ports, Prod.mk.injEq] at h
  obtain ⟨h1, h2, h3, h4⟩ := h
  simp [actuators, IN1, IN2, IN3, IN4, h1, h2, h3, h4]

theorem runCalls_snoc (cs : List Call) (c : Call) (s : MCU) :
    runCalls (cs ++ [c]) s = c.run (runCalls cs s) := by
  simp [runCalls, List.foldl_append]

theorem TimerA0_ISR_no_restart (x : Bool) (s : MCU) : (TimerA0_ISR x s).isRestart = false := by
  by_cases hc : s.channel_index = 0
  · exact (TimerA0_ISR_chanA x s hc).2.1
  · exact (TimerA0_ISR_chanB x s hc).2.1

/-- The Guardian handler never writes `button_held`, tripping or not. -/
theorem TimerA0_ISR_button_held (x : Bool) (s : MCU) :
    (TimerA0_ISR x s).state.button_held = s.button_held := by
  by_cases hc : s.channel_index = 0
  · cases x <;> by_cases hn : OC_DEBOUNCE_TICKS ≤ (s.overCr_countA + 1) % 65536 <;>
      simp [TimerA0_ISR, shutdown, hc, hn, Outcome.state]
  · cases x <;> by_cases hn : OC_DEBOUNCE_TICKS ≤ (s.overCr_countB + 1) % 65536 <;>
      simp [TimerA0_ISR, shutdown, hc, hn, Outcome.state]

theorem Sys.Mission_step (cs : List Call) (m0 : MCU) (σ : Sys) (e : Event) (hI : σ.Inv)
    (hM : σ.Mission cs m0) : (σ.step e).Mission cs m0 := by
  obtain ⟨ran, rest, hcs, hfg, hp⟩ := hM
  cases e with
  | fg =>
    simp only [Sys.step]
    split
    · next f fs hmode hf =>
      rw [hf] at hfg
      cases rest with
      | nil => simp at hfg
      | cons c r =>
        simp only [List.map_cons, List.cons.injEq] at hfg
        obtain ⟨hfc, hfs⟩ := hfg
        refine ⟨ran ++ [c], r, by simp [hcs], hfs, ?_⟩
        intro _
        rw [runCalls_snoc, hfc]
        exact Call.run_ports_congr c _ _ (hp (by simp [hmode]))
    · exact ⟨ran, rest, hcs, hfg, hp⟩
  | ta0 x =>
    show (σ.interrupt (TimerA0_ISR x)).Mission cs m0
    rcases Sys.interrupt_cases (TimerA0_ISR x) σ hI with
      h | ⟨hrun, ⟨m, ho, hs⟩ | ⟨m, ho, hs⟩ | ⟨m, ho, hs⟩⟩
    · rw [h]; exact ⟨ran, rest, hcs, hfg, hp⟩
    · rw [hs]
      refine ⟨ran, rest, hcs, hfg, ?_⟩
      intro _
      have hf := TimerA0_ISR_frame x σ.mcu (by simp [ho, Outcome.isHalted])
      rw [ho] at hf
      obtain ⟨_, f2, f3, f4, f5, _⟩ := hf
      simp only [Outcome.state] at f2 f3 f4 f5
      rw [← hp (by simp [hrun])]
      simp [ports, f2, f3, f4, f5]
    · rw [hs]
      exact ⟨ran, rest, hcs, hfg, fun hne => absurd rfl hne⟩
    · have := TimerA0_ISR_no_restart x σ.mcu
      simp [ho, Outcome.isRestart] at this
  | ta1 x =>
    show (σ.interrupt (Timer1A0_ISR x)).Mission cs m0
    have hf := (Timer1A0_ISR_frame x σ.mcu).1
    rcases Sys.interrupt_cases (Timer1A0_ISR x) σ hI with
      h | ⟨hrun, ⟨m, ho, hs⟩ | ⟨m, ho, hs⟩ | ⟨m, ho, hs⟩⟩
    · rw [h]; exact ⟨ran, rest, hcs, hfg, hp⟩
    · rw [hs]
      refine ⟨ran, rest, hcs, hfg, ?_⟩
      intro _
      rw [ho] at hf
      simp only [Outcome.state] at hf
      rw [← hp (by simp [hrun])]
      exact hf
    · rw [hs]
      exact ⟨ran, rest, hcs, hfg, fun hne => absurd rfl hne⟩
    · rw [hs]
      refine ⟨ran, rest, hcs, hfg, ?_⟩
      intro _
      rw [ho] at hf
      simp only [Outcome.state] at hf
      rw [← hp (by simp [hrun])]
      exact hf

theorem Sys.Mission_exec (cs : List Call) (m0 : MCU) (σ : Sys) (es : List Event) (hI : σ.Inv)
    (hM : σ.Mission cs m0) : (σ.exec es).Mission cs m0 := by
  induction es generalizing σ with
  | nil => exact hM
  | cons e es ih =>
    exact ih (σ.step e) (Sys.Inv_step σ e hI) (Sys.Mission_step cs m0 σ e hI hM)

/-- C15: `do_sequence` run from any register state ends with both duty registers
at 0 and IN1 to IN4 low, the trailing `set_ena(0)` and `set_enb(0)` change
nothing after the last `move(0, REST)`, and the same holds when ticks of both
timers interrupt the sequence without tripping: once the foreground has no
statement left, the actuators are in the Coast state. -/
theorem C15_final_state_is_coast (s : MCU) (es : List Event) :
    actuators (do_sequence s) = (0, 0, false, false, false, false) ∧
    do_sequence s = runCalls (do_sequence_body.take 7) s ∧
    ((Sys.exec ⟨s, true, .run, do_sequence_body.map Call.run⟩ es).mode ≠ .halt →
      (Sys.exec ⟨s, true, .run, do_sequence_body.map Call.run⟩ es).fg = [] →
      actuators (Sys.exec ⟨s, true, .run, do_sequence_body.map Call.run⟩ es).mcu =
        (0, 0, false, false, false, false)) := by
  have hfinal : actuators (do_sequence s) = (0, 0, false, false, false, false) := by
    have hm := move_actuators 0 .REST
      (runCalls (do_sequence_body.take 6) s)
    have e7 : runCalls (do_sequence_body.take 7) s =
        move 0 .REST (runCalls (do_sequence_body.take 6) s) := rfl
    have e9 : do_sequence s = set_enb 0 (set_ena 0 (runCalls (do_sequence_body.take 7) s)) := rfl
    rw [e9, e7]
    simp only [actuators, Prod.mk.injEq] at hm ⊢
    obtain ⟨h1, h2, h3, h4, h5, h6⟩ := hm
    simp [set_ena, set_enb, IN1, IN2, IN3, IN4] at h3 h4 h5 h6 ⊢
    exact ⟨h3, h4, h5, h6⟩
  refine ⟨hfinal, ?_, ?_⟩
  · simp [do_sequence, runCalls, do_sequence_body, Call.run, set_ena, set_enb, move, in3_low]
  · intro hmode hfg
    have hM : Sys.Mission do_sequence_body s ⟨s, true, .run, do_sequence_body.map Call.run⟩ :=
      ⟨[], do_sequence_body, rfl, rfl, fun _ => rfl⟩
    obtain ⟨ran, rest, hcs, hrest, hp⟩ :=
      Sys.Mission_exec do_sequence_body s _ es (Sys.Inv_of_Running _ ⟨rfl, rfl⟩) hM
    rw [hfg] at hrest
    have hnil : rest = [] := by
      cases rest with
      | nil => rfl
      | cons c r => simp at hrest
    rw [hnil, List.append_nil] at hcs
    rw [actuators_of_ports _ _ (hp hmode), ← hcs]
    exact hfinal

/-- A quiet mission run for C15: nine foreground statements with ticks of both
timers between them end in mode `run` with nothing left to do, in the Coast
state. -/
theorem C15_final_state_witness :
    (Sys.exec ⟨boot 0 255 0, true, .run, do_sequence_body.map Call.run⟩ quietMission).mode ≠
      .halt ∧
    (Sys.exec ⟨boot 0 255 0, true, .run, do_sequence_body.map Call.run⟩ quietMission).fg = [] ∧
    actuators (Sys.exec ⟨boot 0 255 0, true, .run, do_sequence_body.map Call.run⟩
      quietMission).mcu = (0, 0, false, false, false, false) :=
  ⟨by decide, rfl,
    (C15_final_state_is_coast (boot 0 255 0) quietMission).2.2 (by decide) rfl⟩

theorem Sys.Bounded_step (σ : Sys) (e : Event) (hI : σ.Inv) (hB : σ.Bounded) :
    (σ.step e).Bounded := by
  obtain ⟨b1, b2, b3, b4, cs, hfg⟩ := hB
  simp only [OC_DEBOUNCE_TICKS] at b1 b2 b4
  cases e with
  | fg =>
    simp only [Sys.step]
    split
    · next f fs hmode hf =>
      rw [hf] at hfg
      cases cs with
      | nil => simp at hfg
      | cons c r =>
        simp only [List.map_cons, List.cons.injEq] at hfg
        obtain ⟨hfc, hfs⟩ := hfg
        obtain ⟨f1, f2, f3, _⟩ := Call.run_frame c σ.mcu
        obtain ⟨r1, r2, r3⟩ := b4 hmode
        refine ⟨?_, ?_, ?_, ?_, r, hfs⟩
        · simp only [hfc, f1, OC_DEBOUNCE_TICKS]; omega
        · simp only [hfc, f2, OC_DEBOUNCE_TICKS]; omega
        · simp only [hfc, f3]; omega
        · intro _
          simp only [hfc, f1, f2, f3, OC_DEBOUNCE_TICKS]
          exact ⟨r1, r2, r3⟩
    · exact ⟨b1, b2, b3, b4, cs, hfg⟩
  | ta0 x =>
    show (σ.interrupt (TimerA0_ISR x)).Bounded
    have hbh := TimerA0_ISR_button_held x σ.mcu
    rcases Sys.interrupt_cases (TimerA0_ISR x) σ hI with
      h | ⟨hrun, hcases⟩
    · rw [h]; exact ⟨b1, b2, b3, b4, cs, hfg⟩
    · obtain ⟨r1, r2, r3⟩ := b4 hrun
      have key : (TimerA0_ISR x σ.mcu).state.overCr_countA ≤ 4 ∧
          (TimerA0_ISR x σ.mcu).state.overCr_countB ≤ 4 ∧
          ((TimerA0_ISR x σ.mcu).isHalted = false →
            (TimerA0_ISR x σ.mcu).state.overCr_countA < 4 ∧
            (TimerA0_ISR x σ.mcu).state.overCr_countB < 4) := by
        by_cases hc : σ.mcu.channel_index = 0
        · obtain ⟨a1, _, a3, a4, _⟩ := TimerA0_ISR_chanA x σ.mcu hc
          simp only [OC_DEBOUNCE_TICKS] at a1
          rw [a3, a4]
          cases x
          · simp; omega
          · simp only [if_true]
            refine ⟨by omega, by omega, ?_⟩
            intro hh
            have : ¬ (true = true ∧ 4 ≤ (σ.mcu.overCr_countA + 1) % 65536) := by
              intro hq; rw [a1.mpr hq] at hh; exact absurd hh (by simp)
            simp at this
            omega
        · obtain ⟨a1, _, a3, a4, _⟩ := TimerA0_ISR_chanB x σ.mcu hc
          simp only [OC_DEBOUNCE_TICKS] at a1
          rw [a3, a4]
          cases x
          · simp; omega
          · simp only [if_true]
            refine ⟨by omega, by omega, ?_⟩
            intro hh
            have : ¬ (true = true ∧ 4 ≤ (σ.mcu.overCr_countB + 1) % 65536) := by
              intro hq; rw [a1.mpr hq] at hh; exact absurd hh (by simp)
            simp at this
            omega
      obtain ⟨k1, k2, k3⟩ := key
      rcases hcases with ⟨m, ho, hs⟩ | ⟨m, ho, hs⟩ | ⟨m, ho, hs⟩
      · rw [ho] at k1 k2 k3 hbh
        simp only [Outcome.state, Outcome.isHalted] at k1 k2 k3 hbh
        rw [hs]
        refine ⟨by simpa [OC_DEBOUNCE_TICKS] using k1, by simpa [OC_DEBOUNCE_TICKS] using k2,
          by simp only [hbh]; omega, ?_, cs, hfg⟩
        intro _
        simp only [hbh, OC_DEBOUNCE_TICKS]
        exact ⟨(k3 trivial).1, (k3 trivial).2, r3⟩
      · rw [ho] at k1 k2 hbh
        simp only [Outcome.state] at k1 k2 hbh
        rw [hs]
        refine ⟨by simpa [OC_DEBOUNCE_TICKS] using k1, by simpa [OC_DEBOUNCE_TICKS] using k2,
          by simp only [hbh]; omega, ?_, cs, hfg⟩
        intro hq
        simp at hq
      · have := TimerA0_ISR_no_restart x σ.mcu
        simp [ho, Outcome.isRestart] at this
  | ta1 x =>
    show (σ.interrupt (Timer1A0_ISR x)).Bounded
    obtain ⟨_, fA, fB, _⟩ := Timer1A0_ISR_frame x σ.mcu
    obtain ⟨t1, t2, t3, _⟩ := Timer1A0_ISR_tick x σ.mcu
    rcases Sys.interrupt_cases (Timer1A0_ISR x) σ hI with
      h | ⟨hrun, hcases⟩
    · rw [h]; exact ⟨b1, b2, b3, b4, cs, hfg⟩
    · obtain ⟨r1, r2, r3⟩ := b4 hrun
      have hle : (Timer1A0_ISR x σ.mcu).state.button_held ≤ 10 := by
        rw [t3]; cases x
        · simp
        · simp only [if_true]; omega
      rcases hcases with ⟨m, ho, hs⟩ | ⟨m, ho, hs⟩ | ⟨m, ho, hs⟩
      · rw [ho] at fA fB t1 t3 hle
        simp only [Outcome.state, Outcome.isRestart] at fA fB t1 t3 hle
        rw [hs]
        refine ⟨by simp only [fA, OC_DEBOUNCE_TICKS]; omega,
          by simp only [fB, OC_DEBOUNCE_TICKS]; omega, hle, ?_, cs, hfg⟩
        intro _
        simp only [fA, fB, OC_DEBOUNCE_TICKS]
        refine ⟨r1, r2, ?_⟩
        rw [t3]
        cases x
        · simp
        · simp only [if_true]
          have : ¬ (true = true ∧ 10 ≤ (σ.mcu.button_held + 1) % 65536) := by
            intro hq; exact absurd (t1.mpr hq) (by simp)
          simp at this
          omega
      · rw [ho] at t2
        simp [Outcome.isHalted] at t2
      · rw [ho] at fA fB hle
        simp only [Outcome.state] at fA fB hle
        rw [hs]
        refine ⟨by simp only [fA, OC_DEBOUNCE_TICKS]; omega,
          by simp only [fB, OC_DEBOUNCE_TICKS]; omega, hle, ?_, cs, hfg⟩
        intro hq
        simp at hq

theorem Sys.Bounded_exec (σ : Sys) (es : List Event) (hI : σ.Inv) (hB : σ.Bounded) :
    (σ.exec es).Bounded := by
  induction es generalizing σ with
  | nil => exact hB
  | cons e es ih =>
    exact ih (σ.step e) (Sys.Inv_step σ e hI) (Sys.Bounded_step σ e hI hB)

/-- C12: in every state the system reaches from the initialised state through
foreground statements, Guardian ticks and Watchdog ticks, `overCr_countA` and
`overCr_countB` are at most `OC_DEBOUNCE_TICKS` and `button_held` is at most 10;
each counter is far enough below 65536 that an increment cannot wrap, and a run
starts with `button_held = 0`. -/
theorem C12_counters_bounded (p1 p2 p9 : Nat) (es : List Event) :
    ((Sys.start p1 p2 p9).exec es).mcu.overCr_countA ≤ OC_DEBOUNCE_TICKS ∧
    ((Sys.start p1 p2 p9).exec es).mcu.overCr_countB ≤ OC_DEBOUNCE_TICKS ∧
    ((Sys.start p1 p2 p9).exec es).mcu.button_held ≤ 10 ∧
    ((Sys.start p1 p2 p9).exec es).mcu.overCr_countA + 1 < 65536 ∧
    ((Sys.start p1 p2 p9).exec es).mcu.overCr_countB + 1 < 65536 ∧
    ((Sys.start p1 p2 p9).exec es).mcu.button_held + 1 < 65536 ∧
    (Sys.start p1 p2 p9).mcu.button_held = 0 := by
  have hB0 : (Sys.start p1 p2 p9).Bounded := by
    refine ⟨?_, ?_, ?_, ?_, do_sequence_body, rfl⟩ <;>
      simp [Sys.start, boot, OC_DEBOUNCE_TICKS]
  obtain ⟨b1, b2, b3, _, _⟩ :=
    Sys.Bounded_exec (Sys.start p1 p2 p9) es (Sys.Inv_of_Running _ ⟨rfl, rfl⟩) hB0
  simp only [OC_DEBOUNCE_TICKS] at b1 b2 ⊢
  exact ⟨b1, b2, b3, by omega, by omega, by omega, rfl⟩

/-! ## Detection latency of the Guardian -/

theorem chanSamples_length (X : Nat) (hX : X < 2) (l : List Bool) :
    (chanSamples X l).length = (l.length + 1 - X) / 2 := by
  induction l using List.reverseRecOn with
  | nil =>
    have : X = 0 ∨ X = 1 := by omega
    rcases this with h | h <;> simp [chanSamples, h]
  | append_singleton l x ih =>
    rw [chanSamples_snoc]
    by_cases hp : l.length % 2 = X
    · simp only [hp, if_true, List.length_append, List.length_singleton, ih]
      omega
    · simp only [hp, if_false, List.length_append, List.length_singleton, ih]
      omega

theorem trailingRun_append_replicate (c : List Bool) (n : Nat) :
    trailingRun (c ++ List.replicate n true) = trailingRun c + n := by
  induction n with
  | zero => simp
  | succ n ih =>
    rw [List.replicate_succ', ← List.append_assoc, trailingRun_snoc, ih]
    simp
    omega

theorem guardianTicks_append (l m : List Bool) (s : MCU) :
    guardianTicks (l ++ m) s = (guardianTicks l s).bind (guardianTicks m) := by
  induction l generalizing s with
  | nil => simp [guardianTicks]
  | cons c l ih =>
    simp only [List.cons_append, guardianTicks]
    cases TimerA0_ISR c s with
    | returned s1 => simp [ih]
    | halted s1 => simp
    | restart s1 => simp

/-- A run that does not return to the end has a tick that trips. -/
theorem exists_tripsAt_of_none (f : List Bool) (s : MCU) (h : guardianTicks f s = none) :
    ∃ k, k < f.length ∧ tripsAt f s k = true := by
  induction f generalizing s with
  | nil => simp [guardianTicks] at h
  | cons x f ih =>
    simp only [guardianTicks] at h
    cases ho : TimerA0_ISR x s with
    | returned s1 =>
      rw [ho] at h
      obtain ⟨k, hk, ht⟩ := ih s1 h
      refine ⟨k + 1, by simp [hk], ?_⟩
      simpa [tripsAt, guardianTicks, ho] using ht
    | halted s1 =>
      exact ⟨0, by simp, by simp [tripsAt, guardianTicks, ho, Outcome.isHalted]⟩
    | restart s1 =>
      have := TimerA0_ISR_no_restart x s
      simp [ho, Outcome.isRestart] at this

theorem chanSamples_append_pair (X : Nat) (l : List Bool) (a b : Bool) (hX : X < 2) :
    chanSamples X (l ++ [a, b]) =
      chanSamples X l ++ [if l.length % 2 = X then a else b] := by
  have e : l ++ [a, b] = (l ++ [a]) ++ [b] := by simp
  rw [e, chanSamples_snoc, chanSamples_snoc]
  by_cases hp : l.length % 2 = X
  · have : ¬ (l.length + 1) % 2 = X := by omega
    simp [hp, this]
  · have : (l.length + 1) % 2 = X := by omega
    simp [hp, this]

theorem list_length_eight (f : List Bool) (h : f.length = 8) :
    ∃ a0 b0 a1 b1 a2 b2 a3 b3, f = [a0, b0, a1, b1, a2, b2, a3, b3] := by
  rcases f with _ | ⟨a0, _ | ⟨b0, _ | ⟨a1, _ | ⟨b1, _ | ⟨a2, _ | ⟨b2, _ | ⟨a3, _ | ⟨b3, _ | ⟨c, r⟩⟩⟩⟩⟩⟩⟩⟩⟩
  all_goals first
    | exact ⟨_, _, _, _, _, _, _, _, rfl⟩
    | (simp at h)

/-- Eight ticks in which every sample of channel `X` is over threshold put four
over-threshold samples at the end of the samples of `X`. -/
theorem chanSamples_fault (X : Nat) (hX : X < 2) (l f : List Bool) (hlen : f.length = 8)
    (hover : ∀ i, i < f.length → (l.length + i) % 2 = X → f.getD i false = true) :
    chanSamples X (l ++ f) = chanSamples X l ++ List.replicate 4 true := by
  obtain ⟨a0, b0, a1, b1, a2, b2, a3, b3, rfl⟩ := list_length_eight f hlen
  have e : l ++ [a0, b0, a1, b1, a2, b2, a3, b3] =
      (((l ++ [a0, b0]) ++ [a1, b1]) ++ [a2, b2]) ++ [a3, b3] := by simp
  rw [e, chanSamples_append_pair _ _ _ _ hX, chanSamples_append_pair _ _ _ _ hX,
    chanSamples_append_pair _ _ _ _ hX, chanSamples_append_pair _ _ _ _ hX]
  simp only [List.length_append, List.length_cons, List.length_nil]
  by_cases hq : l.length % 2 = X
  · have q1 : (l.length + (0 + 1 + 1)) % 2 = X := by omega
    have q2 : (l.length + (0 + 1 + 1) + (0 + 1 + 1)) % 2 = X := by omega
    have q3 : (l.length + (0 + 1 + 1) + (0 + 1 + 1) + (0 + 1 + 1)) % 2 = X := by omega
    have h0 := hover 0 (by simp) (by omega)
    have h2 := hover 2 (by simp) (by omega)
    have h4 := hover 4 (by simp) (by omega)
    have h6 := hover 6 (by simp) (by omega)
    simp at h0 h2 h4 h6
    simp [hq, q1, q2, q3, h0, h2, h4, h6, List.replicate]
  · have q1 : ¬ (l.length + (0 + 1 + 1)) % 2 = X := by omega
    have q2 : ¬ (l.length + (0 + 1 + 1) + (0 + 1 + 1)) % 2 = X := by omega
    have q3 : ¬ (l.length + (0 + 1 + 1) + (0 + 1 + 1) + (0 + 1 + 1)) % 2 = X := by omega
    have h1 := hover 1 (by simp) (by omega)
    have h3 := hover 3 (by simp) (by omega)
    have h5 := hover 5 (by simp) (by omega)
    have h7 := hover 7 (by simp) (by omega)
    simp at h1 h3 h5 h7
    simp [hq, q1, q2, q3, h1, h3, h5, h7, List.replicate]

/-- C11: from every state the Guardian reaches without tripping, if every
sample of channel `X` in the next `2 * OC_DEBOUNCE_TICKS = 8` ticks is over
threshold, one of these ticks trips; when no tick of the other channel trips
first, the tripping tick is a tick of channel `X`, and it is at most the
fourth sample of `X` among them. -/
theorem C11_detection_latency (l f : List Bool) (s0 s : MCU) (X : Nat)
    (h0 : GuardianInit s0) (h : guardianTicks l s0 = some s) (hX : X < 2)
    (hlen : f.length = 2 * OC_DEBOUNCE_TICKS)
    (hover : ∀ i, i < f.length → (l.length + i) % 2 = X → f.getD i false = true) :
    guardianTicks f s = none ∧
    ((∀ k, k < f.length → (l.length + k) % 2 ≠ X → tripsAt f s k = false) →
      ∃ k, k < 2 * OC_DEBOUNCE_TICKS ∧ (l.length + k) % 2 = X ∧ tripsAt f s k = true ∧
        (chanSamples X (l ++ f.take (k + 1))).length ≤
          (chanSamples X l).length + OC_DEBOUNCE_TICKS) := by
  simp only [OC_DEBOUNCE_TICKS] at hlen ⊢
  have hnone : guardianTicks f s = none := by
    cases hg : guardianTicks f s with
    | none => rfl
    | some t =>
      exfalso
      have hall : guardianTicks (l ++ f) s0 = some t := by
        rw [guardianTicks_append, h]
        simpa using hg
      obtain ⟨_, i2, i3, i4, i5⟩ := guardian_invariant (l ++ f) s0 t h0 hall
      simp only [OC_DEBOUNCE_TICKS] at i4 i5
      have hch := chanSamples_fault X hX l f hlen hover
      have hrun : 4 ≤ trailingRun (chanSamples X (l ++ f)) := by
        rw [hch, trailingRun_append_replicate]
        omega
      have hXc : X = 0 ∨ X = 1 := by omega
      rcases hXc with hx | hx
      · rw [hx] at hrun; omega
      · rw [hx] at hrun; omega
  refine ⟨hnone, ?_⟩
  intro hother
  obtain ⟨k, hk, ht⟩ := exists_tripsAt_of_none f s hnone
  have hpar : (l.length + k) % 2 = X := by
    by_contra hne
    rw [hother k hk hne] at ht
    exact absurd ht (by simp)
  refine ⟨k, by omega, hpar, ht, ?_⟩
  rw [chanSamples_length X hX, chanSamples_length X hX, List.length_append, List.length_take]
  omega

/-- A fault on channel A from the initialised state, for C11: channel A reads
over threshold at each of its samples and channel B reads clean; the seventh
tick, the fourth sample of A, trips. -/
theorem C11_detection_latency_witness :
    GuardianInit (boot 0 0 0) ∧ guardianTicks [] (boot 0 0 0) = some (boot 0 0 0) ∧
    guardianTicks faultOnA (boot 0 0 0) = none ∧
    tripsAt faultOnA (boot 0 0 0) 6 = true ∧
    ∃ k, k < 2 * OC_DEBOUNCE_TICKS ∧ (([] : List Bool).length + k) % 2 = 0 ∧
      tripsAt faultOnA (boot 0 0 0) k = true ∧
      (chanSamples 0 ([] ++ faultOnA.take (k + 1))).length ≤
        (chanSamples 0 []).length + OC_DEBOUNCE_TICKS :=
  ⟨by decide, rfl,
    (C11_detection_latency [] faultOnA (boot 0 0 0) (boot 0 0 0) 0 (by decide) rfl (by decide)
      (by decide) (by decide)).1,
    by decide,
    (C11_detection_latency [] faultOnA (boot 0 0 0) (boot 0 0 0) 0 (by decide) rfl (by decide)
      (by decide) (by decide)).2 (by decide)⟩

/-! ## The mission as it runs -/

/-- `set_ena` writes the duty of channel A only. -/
theorem actuators_set_ena (d : Nat) (s : MCU) :
    actuators (set_ena d s) =
      ((if d > CCR0VAL then CCR0VAL else d) % 65536, (actuators s).2) := by
  simp [actuators, set_ena, IN1, IN2, IN3, IN4]

/-- `set_enb` writes the duty of channel B only. -/
theorem actuators_set_enb (d : Nat) (s : MCU) :
    actuators (set_enb d s) =
      ((actuators s).1, (if d > CCR0VAL then CCR0VAL else d) % 65536, (actuators s).2.2) := by
  simp [actuators, set_enb, IN1, IN2, IN3, IN4]

/-- The timeline of `do_sequence` from a state whose actuators are not already
in the Forward state. -/
theorem timeline_do_sequence (s : MCU) (h : actuators s ≠ forwardState) :
    (timeline do_sequence_body s).1 =
      [.change forwardState, .hold 105 (105 * (SEC / 100)),
        .change coastState, .hold 10 (10 * (SEC / 100)),
        .change pivotRightState, .hold 100 (100 * (SEC / 100)),
        .change coastState] ∧
    (timeline do_sequence_body s).2 = do_sequence s := by
  constructor
  · simp only [timeline, do_sequence_body, Call.run, move_actuators, turn_actuators,
      actuators_set_ena, actuators_set_enb, delay_0_01s_eq, FORWARD_SEC_X100,
      PAUSE_BETWEEN_SEC_X100, TURN_RIGHT_SEC_X100]
    have h1 : ¬ ((800, 800, false, true, false, true) = actuators s) := fun e => h e.symm
    simp [h1, forwardState, coastState, pivotRightState, u16, DRIVE_DUTY, CCR0VAL,
      F_SMCLK, F_PWM]
  · rfl

theorem head?_record (a : Nat × Nat × Bool × Bool × Bool × Bool)
    (log : List (Nat × Nat × Bool × Bool × Bool × Bool)) :
    (record a log).head? = some a := by
  cases log with
  | nil => rfl
  | cons b log =>
    by_cases hb : a = b <;> simp [record, hb]

theorem record_of_head? (a : Nat × Nat × Bool × Bool × Bool × Bool)
    (log : List (Nat × Nat × Bool × Bool × Bool × Bool)) (h : log.head? = some a) :
    record a log = log := by
  cases log with
  | nil => simp at h
  | cons b log =>
    simp only [List.head?_cons, Option.some.injEq] at h
    simp [record, h]

theorem observeCalls_snoc (s : MCU) (log : List (Nat × Nat × Bool × Bool × Bool × Bool))
    (cs : List Call) (c : Call) :
    observeCalls s log (cs ++ [c]) =
      record (actuators (runCalls (cs ++ [c]) s)) (observeCalls s log cs) := by
  induction cs generalizing s log with
  | nil => simp [observeCalls, runCalls]
  | cons c1 cs ih =>
    show observeCalls (c1.run s) (record (actuators (c1.run s)) log) (cs ++ [c]) = _
    rw [ih]
    rfl

theorem head?_observeCalls (s : MCU) (log : List (Nat × Nat × Bool × Bool × Bool × Bool))
    (cs : List Call) (h : log.head? = some (actuators s)) :
    (observeCalls s log cs).head? = some (actuators (runCalls cs s)) := by
  induction cs generalizing s log with
  | nil => simpa [observeCalls, runCalls] using h
  | cons c cs ih =>
    simp only [observeCalls]
    exact ih (c.run s) _ (head?_record _ _)

theorem Sys.Observed_step (cs : List Call) (m0 : MCU) (σ : Sys)
    (log : List (Nat × Nat × Bool × Bool × Bool × Bool)) (e : Event) (hI : σ.Inv)
    (hO : σ.Observed cs m0 log) :
    (σ.step e).Observed cs m0 (record (actuators (σ.step e).mcu) log) := by
  obtain ⟨ran, rest, hcs, hfg, hp⟩ := hO
  have same : ∀ m : MCU, ports m = ports σ.mcu → σ.mode ≠ .halt →
      ports m = ports (runCalls ran m0) ∧
      record (actuators m) log = observeCalls m0 [actuators m0] ran := by
    intro m hm hmode
    obtain ⟨q1, q2⟩ := hp hmode
    refine ⟨hm.trans q1, ?_⟩
    have hh : log.head? = some (actuators m) := by
      rw [q2, head?_observeCalls m0 [actuators m0] ran rfl,
        actuators_of_ports m _ (hm.trans q1)]
    rw [record_of_head? _ _ hh]
    exact q2
  cases e with
  | fg =>
    simp only [Sys.step]
    split
    · next f fs hmode hf =>
      rw [hf] at hfg
      cases rest with
      | nil => simp at hfg
      | cons c r =>
        simp only [List.map_cons, List.cons.injEq] at hfg
        obtain ⟨hfc, hfs⟩ := hfg
        refine ⟨ran ++ [c], r, by simp [hcs], hfs, ?_⟩
        intro _
        obtain ⟨q1, q2⟩ := hp (by simp [hmode])
        have hpc : ports (f σ.mcu) = ports (runCalls (ran ++ [c]) m0) := by
          rw [runCalls_snoc, hfc]
          exact Call.run_ports_congr c _ _ q1
        refine ⟨hpc, ?_⟩
        rw [observeCalls_snoc, ← q2, actuators_of_ports _ _ hpc]
    · exact ⟨ran, rest, hcs, hfg, fun hm => same σ.mcu rfl hm⟩
  | ta0 x =>
    show (σ.interrupt (TimerA0_ISR x)).Observed cs m0
      (record (actuators (σ.interrupt (TimerA0_ISR x)).mcu) log)
    rcases Sys.interrupt_cases (TimerA0_ISR x) σ hI with
      h | ⟨hrun, ⟨m, ho, hs⟩ | ⟨m, ho, hs⟩ | ⟨m, ho, hs⟩⟩
    · rw [h]; exact ⟨ran, rest, hcs, hfg, fun hm => same σ.mcu rfl hm⟩
    · rw [hs]
      refine ⟨ran, rest, hcs, hfg, ?_⟩
      intro _
      have hf := TimerA0_ISR_frame x σ.mcu (by simp [ho, Outcome.isHalted])
      rw [ho] at hf
      obtain ⟨_, f2, f3, f4, f5, _⟩ := hf
      simp only [Outcome.state] at f2 f3 f4 f5
      exact same m (by simp [ports, f2, f3, f4, f5]) (by simp [hrun])
    · rw [hs]
      exact ⟨ran, rest, hcs, hfg, fun hne => absurd rfl hne⟩
    · have := TimerA0_ISR_no_restart x σ.mcu
      simp [ho, Outcome.isRestart] at this
  | ta1 x =>
    show (σ.interrupt (Timer1A0_ISR x)).Observed cs m0
      (record (actuators (σ.interrupt (Timer1A0_ISR x)).mcu) log)
    have hf := (Timer1A0_ISR_frame x σ.mcu).1
    rcases Sys.interrupt_cases (Timer1A0_ISR x) σ hI with
      h | ⟨hrun, ⟨m, ho, hs⟩ | ⟨m, ho, hs⟩ | ⟨m, ho, hs⟩⟩
    · rw [h]; exact ⟨ran, rest, hcs, hfg, fun hm => same σ.mcu rfl hm⟩
    · rw [hs]
      refine ⟨ran, rest, hcs, hfg, ?_⟩
      intro _
      rw [ho] at hf
      exact same m hf (by simp [hrun])
    · rw [hs]
      exact ⟨ran, rest, hcs, hfg, fun hne => absurd rfl hne⟩
    · rw [hs]
      refine ⟨ran, rest, hcs, hfg, ?_⟩
      intro _
      rw [ho] at hf
      exact same m hf (by simp [hrun])

/-- An observed run that ends untripped with the foreground finished has logged
what the script logs when nothing interrupts it. -/
theorem Sys.observe_eq_observeCalls (cs : List Call) (m0 : MCU) (es : List Event) (σ : Sys)
    (log : List (Nat × Nat × Bool × Bool × Bool × Bool)) (hI : σ.Inv)
    (hO : σ.Observed cs m0 log) (hmode : (σ.exec es).mode ≠ .halt)
    (hfg : (σ.exec es).fg = []) :
    Sys.observe σ log es = observeCalls m0 [actuators m0] cs := by
  induction es generalizing σ log with
  | nil =>
    obtain ⟨ran, rest, hcs, hrest, hp⟩ := hO
    have e1 : σ.exec [] = σ := rfl
    rw [e1] at hmode hfg
    rw [hfg] at hrest
    have hnil : rest = [] := by
      cases rest with
      | nil => rfl
      | cons c r => simp at hrest
    rw [hnil, List.append_nil] at hcs
    rw [hcs]
    exact (hp hmode).2
  | cons e es ih =>
    have e1 : σ.exec (e :: es) = (σ.step e).exec es := rfl
    rw [e1] at hmode hfg
    exact ih (σ.step e) _ (Sys.Inv_step σ e hI) (Sys.Observed_step cs m0 σ log e hI hO)
      hmode hfg

/-- The actuator states `do_sequence` passes through with no interrupt, most
recent first. -/
theorem observeCalls_do_sequence (s : MCU) (h : actuators s ≠ forwardState) :
    observeCalls s [actuators s] do_sequence_body =
      [coastState, pivotRightState, coastState, forwardState, actuators s] := by
  have h1 : ¬ ((800, 800, false, true, false, true) = actuators s) := fun e => h e.symm
  simp only [observeCalls, do_sequence_body, Call.run, move_actuators, turn_actuators,
    actuators_set_ena, actuators_set_enb]
  simp [record, h1, forwardState, coastState, pivotRightState, u16, DRIVE_DUTY, CCR0VAL,
    F_SMCLK, F_PWM]

/-- C9: run from a state whose actuators are not already in the Forward state
(the initialised state is one), `do_sequence` changes what the H-bridge sees
exactly four times, to Forward, Coast, PivotRight and Coast in this order, and
holds the first three for 105, 10 and 100 rounds of the delay helper (1.05, 0.10
and 1.00 times `SEC` cycles); Forward and PivotRight carry the same duty
`DRIVE_DUTY`; the trailing statements change nothing. The same four changes,
and no other, are seen when ticks of both timers interrupt the run without
tripping. The four maneuver statements of the body are `move(DRIVE_DUTY,
FORWARD)`, `move(0, REST)`, `turn(DRIVE_DUTY, RIGHT)`, `move(0, REST)`. -/
theorem C9_mission_run (s : MCU) (es : List Event) (h : actuators s ≠ forwardState) :
    (timeline do_sequence_body s).1 =
      [.change forwardState, .hold 105 (105 * (SEC / 100)),
        .change coastState, .hold 10 (10 * (SEC / 100)),
        .change pivotRightState, .hold 100 (100 * (SEC / 100)),
        .change coastState] ∧
    (timeline do_sequence_body s).2 = do_sequence s ∧
    ((Sys.exec ⟨s, true, .run, do_sequence_body.map Call.run⟩ es).mode ≠ .halt →
      (Sys.exec ⟨s, true, .run, do_sequence_body.map Call.run⟩ es).fg = [] →
      (Sys.observe ⟨s, true, .run, do_sequence_body.map Call.run⟩ [actuators s] es).reverse =
        [actuators s, forwardState, coastState, pivotRightState, coastState]) ∧
    (100 * (105 * (SEC / 100)) = 105 * SEC ∧ 100 * (10 * (SEC / 100)) = 10 * SEC ∧
      100 * (100 * (SEC / 100)) = 100 * SEC) ∧
    (forwardState.1 = DRIVE_DUTY ∧ pivotRightState.1 = DRIVE_DUTY ∧
      forwardState.2.1 = DRIVE_DUTY ∧ pivotRightState.2.1 = DRIVE_DUTY) ∧
    do_sequence_body.filter Call.isManeuver =
      [.move DRIVE_DUTY .FORWARD, .move 0 .REST, .turn DRIVE_DUTY .RIGHT, .move 0 .REST] ∧
    do_sequence_body.filter (fun c => c.isManeuver || c.isHold) =
      [.move DRIVE_DUTY .FORWARD, .delay_0_01s 105, .move 0 .REST, .delay_0_01s 10,
        .turn DRIVE_DUTY .RIGHT, .delay_0_01s 100, .move 0 .REST] := by
  obtain ⟨t1, t2⟩ := timeline_do_sequence s h
  refine ⟨t1, t2, ?_, ?_, ⟨rfl, rfl, rfl, rfl⟩, by decide, by decide⟩
  · intro hmode hfg
    have hO : Sys.Observed do_sequence_body s ⟨s, true, .run, do_sequence_body.map Call.run⟩
        [actuators s] :=
      ⟨[], do_sequence_body, rfl, rfl, fun _ => ⟨rfl, rfl⟩⟩
    rw [Sys.observe_eq_observeCalls do_sequence_body s es _ _
      (Sys.Inv_of_Running _ ⟨rfl, rfl⟩) hO hmode hfg, observeCalls_do_sequence s h]
    rfl
  · simp [SEC, F_SMCLK]

/-- A quiet mission run from the initialised state, for C9: with ticks of both
timers between the statements the actuators pass through their initial state,
Forward, Coast, PivotRight and Coast, and nothing else. -/
theorem C9_mission_run_witness :
    actuators (boot 0 0 0) ≠ forwardState ∧
    (Sys.exec ⟨boot 0 0 0, true, .run, do_sequence_body.map Call.run⟩ quietMission).mode ≠
      .halt ∧
    (Sys.exec ⟨boot 0 0 0, true, .run, do_sequence_body.map Call.run⟩ quietMission).fg = [] ∧
    (Sys.observe ⟨boot 0 0 0, true, .run, do_sequence_body.map Call.run⟩
        [actuators (boot 0 0 0)] quietMission).reverse =
      [actuators (boot 0 0 0), forwardState, coastState, pivotRightState, coastState] ∧
    (timeline do_sequence_body (boot 0 0 0)).2 = do_sequence (boot 0 0 0) :=
  ⟨by decide, by decide, rfl,
    (C9_mission_run (boot 0 0 0) quietMission (by decide)).2.2.1 (by decide) rfl,
    (C9_mission_run (boot 0 0 0) quietMission (by decide)).2.1⟩

end ProjectLab1
